import Mathlib

/-!
# Directory listing and classification (`libretro-common/file/dir_list.c`)

A shallow embedding of `parse_dir_entry`, `dirent_is_directory`, the
`dirent_*` macros, `dir_list_new`, `qstrcmp_plain`, `qstrcmp_dir` and
`dir_list_sort`, followed by theorems about them.

Conventions of the embedding

* a `struct string_list` is a `List string_list_elem`; a pointer that may be
  `NULL` is an `Option`;
* `attr.i` is an `Int`; the subtraction in `qstrcmp_dir` wraps to 32 bits;
* helpers that live outside `dir_list.c` (`file_path.h`, `string_list.h`,
  the allocator, the file system) are fields of `Externals`; every theorem
  quantifies over them, and `std_env` is one concrete choice used to
  evaluate the code on explicit inputs.
-/

namespace DirList

/-! ## Data model -/

/-- Modelled from the spec: the kind codes of `file/dir_list.h`, which is not
part of the source tree (`RARCH_FILETYPE_UNSET` is the first enumerator). -/
def RARCH_FILETYPE_UNSET : Int := 0

/-- Modelled from the spec: kind code of a plain (core-supported) file. -/
def RARCH_PLAIN_FILE : Int := 1

/-- Modelled from the spec: kind code of a compressed archive. -/
def RARCH_COMPRESSED_ARCHIVE : Int := 3

/-- Modelled from the spec: kind code of a directory. -/
def RARCH_DIRECTORY : Int := 4

/-- One element of a `struct string_list`: the path and `attr.i`. -/
structure string_list_elem where
  data : String
  attr : Int
  deriving DecidableEq, Repr

/-- POSIX `d_type` values that `dirent_is_directory` tells apart. -/
inductive d_type_t where
  | DT_DIR
  | DT_UNKNOWN
  | DT_LNK
  | DT_OTHER
  deriving DecidableEq, Repr

/-- One entry as the platform primitive yields it: the raw name, the POSIX
`d_type`, and the directory bit of the Win32 / PSP / Vita entry
(`FILE_ATTRIBUTE_DIRECTORY`, `FIO_SO_IFDIR`, `PSP2_S_ISDIR`). -/
structure dirent where
  d_name : String
  d_type : d_type_t
  attr_directory : Bool
  deriving DecidableEq, Repr

/-- The four preprocessor configurations of `dir_list.c`. -/
inductive Backend where
  | WIN32
  | SCE
  | POSIX_DT
  | POSIX_PLAIN
  deriving DecidableEq, Repr

/-- Everything `dir_list.c` calls but does not define. -/
structure Externals where
  /-- `path_is_compressed_file` of `file_path.h`. -/
  path_is_compressed_file : String → Bool
  /-- `path_is_directory` of `file_path.h` (a file-system query). -/
  path_is_directory : String → Bool
  /-- `path_get_extension` of `file_path.h`. -/
  path_get_extension : String → String
  /-- `fill_pathname_join` of `file_path.h`, as a function of `dir` and `path`
  (the buffer size is the constant `PATH_MAX_LENGTH`). -/
  fill_pathname_join : String → String → String
  /-- `string_split` of `string_list.h`; `none` is `NULL`. -/
  string_split : String → String → Option (List String)
  /-- `string_list_find_elem_prefix` of `string_list.h`. -/
  string_list_find_elem_prefix : Option (List String) → String → String → Bool
  /-- Whether `string_list_new` gets its memory. -/
  string_list_new_ok : Bool
  /-- Whether `string_list_append` onto a list of the given size gets its memory. -/
  string_list_append_ok : Nat → Bool
  /-- What the platform enumeration yields for a path, in order; `none` when
  the path cannot be opened. On Win32 the head is what `FindFirstFile` finds. -/
  dir_stream : String → Option (List dirent)
  /-- The indeterminate content of the local buffer `file_path` at the start
  of the i-th loop iteration, before `fill_pathname_join` writes it. -/
  file_path_indeterminate : Nat → String

/-! ## `parse_dir_entry` -/

/-- Modelled from the spec: `string_list_append` of `string_list.h`, absent
from the source tree: on success the element is added at the end, on
allocation failure the list is left as it was and the call reports failure. -/
def string_list_append (X : Externals) (list : List string_list_elem)
    (elem : String) (attr : Int) : Option (List string_list_elem) :=
  if X.string_list_append_ok list.length then some (list ++ [⟨elem, attr⟩]) else none

/-- `parse_dir_entry` (dir_list.c:161-209): the return code and the listing
after the call. -/
def parse_dir_entry (X : Externals) (name file_path : String)
    (is_dir include_dirs include_compressed : Bool)
    (list : List string_list_elem) (ext_list : Option (List String))
    (file_ext : String) : Int × List string_list_elem :=
  let is_compressed_file : Bool :=
    if !is_dir then X.path_is_compressed_file file_path else false
  let supported_by_core : Bool :=
    if !is_dir then X.string_list_find_elem_prefix ext_list "." file_ext else false
  if !include_dirs && is_dir then (1, list)
  else if name == "." || name == ".." then (1, list)
  else if !is_dir && ext_list.isSome &&
      ((!is_compressed_file && !supported_by_core) ||
       (!supported_by_core && !include_compressed)) then (1, list)
  else
    let attr0 : Int := RARCH_FILETYPE_UNSET
    let attr1 : Int := if is_dir then RARCH_DIRECTORY else attr0
    let attr2 : Int := if is_compressed_file then RARCH_COMPRESSED_ARCHIVE else attr1
    let attr3 : Int := if supported_by_core then RARCH_PLAIN_FILE else attr2
    match string_list_append X list file_path attr3 with
    | none => (-1, list)
    | some list1 => (0, list1)

/-! ## `dir_list_new` -/

/-- `dirent_is_directory` (dir_list.c:117-143), one branch per configuration. -/
def dirent_is_directory (X : Externals) (b : Backend) (path : String)
    (entry : dirent) : Bool :=
  match b with
  | Backend.WIN32 => entry.attr_directory
  | Backend.SCE => entry.attr_directory
  | Backend.POSIX_DT =>
    match entry.d_type with
    | d_type_t.DT_DIR => true
    | d_type_t.DT_UNKNOWN => X.path_is_directory path
    | d_type_t.DT_LNK => X.path_is_directory path
    | d_type_t.DT_OTHER => false
  | Backend.POSIX_PLAIN => X.path_is_directory path

/-- The state of `directory` and `entry` after `dirent_opendir`. -/
structure dir_handle where
  /-- The handle is a real one (`dirent_error` is false). -/
  valid : Bool
  /-- The variable `entry`; Win32 `FindFirstFile` fills it. -/
  entry : Option dirent
  /-- What later reads of the handle yield. -/
  pending : List dirent
  deriving DecidableEq, Repr

/-- `dirent_opendir` (dir_list.c:211-222). `FindFirstFile` returns the handle
together with the first entry, and fails when nothing is found; the other
primitives return a handle only. -/
def dirent_opendir (b : Backend) (stream : Option (List dirent)) : dir_handle :=
  match b, stream with
  | Backend.WIN32, some (e :: es) => ⟨true, some e, es⟩
  | Backend.WIN32, _ => ⟨false, none, []⟩
  | _, some es => ⟨true, none, es⟩
  | _, none => ⟨false, none, []⟩

/-- `dirent_error` (dir_list.c:224-230). -/
def dirent_error (directory : dir_handle) : Bool := !directory.valid

/-- `dirent_closedir` (dir_list.c:240-246): how many times the platform close
is called; Win32 and POSIX test the handle first, PSP / Vita do not. -/
def dirent_closedir (b : Backend) (directory : dir_handle) : Nat :=
  match b with
  | Backend.SCE => 1
  | _ => if directory.valid then 1 else 0

/-- The `while (dirent_readdir(directory, entry))` loop of `dir_list_new`
(dir_list.c:288-314), by recursion on what the handle still yields:
`dirent_readdir` (dir_list.c:232-238) makes the next pending entry the
current `entry`, and ends the loop when none is left. The counter is the
iteration number; `none` is the `goto error` exit. Note that
`dirent_is_directory` reads `file_path` before `fill_pathname_join` fills it. -/
def dir_list_new_loop (X : Externals) (b : Backend) (dir : String)
    (include_dirs include_compressed : Bool) (ext_list : Option (List String)) :
    Nat → List dirent → List string_list_elem → Option (List string_list_elem)
  | _, [], list => some list
  | i, entry :: rest, list =>
    let file_path0 : String := X.file_path_indeterminate i
    let name : String := entry.d_name
    let is_dir : Bool := dirent_is_directory X b file_path0 entry
    let file_ext : String := X.path_get_extension name
    let file_path : String := X.fill_pathname_join dir name
    let r := parse_dir_entry X name file_path is_dir include_dirs include_compressed
      list ext_list file_ext
    if r.1 = -1 then none
    else dir_list_new_loop X b dir include_dirs include_compressed ext_list (i + 1) rest r.2

/-- What a call of `dir_list_new` leaves behind: the returned pointer, whether
the open step succeeded, and how often the close primitive ran. -/
structure dir_list_run where
  list : Option (List string_list_elem)
  opened : Bool
  close_calls : Nat
  deriving DecidableEq, Repr

/-- The filter list of `dir_list_new` (dir_list.c:274, 280-281): `NULL` unless
`ext` is given, and then what `string_split(ext, "|")` returns. -/
def dir_list_new_ext_list (X : Externals) (ext : Option String) : Option (List String) :=
  match ext with
  | some e => X.string_split e "|"
  | none => none

/-- `dir_list_new` (dir_list.c:261-327). `ext = none` is a `NULL` filter. -/
def dir_list_new (X : Externals) (b : Backend) (dir : String) (ext : Option String)
    (include_dirs include_compressed : Bool) : dir_list_run :=
  if !X.string_list_new_ok then ⟨none, false, 0⟩
  else
    let ext_list : Option (List String) := dir_list_new_ext_list X ext
    let directory := dirent_opendir b (X.dir_stream dir)
    if dirent_error directory then ⟨none, false, dirent_closedir b directory⟩
    else
      match dir_list_new_loop X b dir include_dirs include_compressed ext_list 0
          directory.pending [] with
      | none => ⟨none, true, dirent_closedir b directory⟩
      | some list => ⟨some list, true, dirent_closedir b directory⟩

/-! ## Sorting -/

/-- The bytes of a C string: the character codes up to the first NUL. -/
def c_str (s : String) : List Nat :=
  (s.toList.map Char.toNat).takeWhile (fun c => c ≠ 0)

/-- `tolower` of libc in the C locale. -/
def tolower (c : Nat) : Nat := if 65 ≤ c ∧ c ≤ 90 then c + 32 else c

/-- The comparison loop of `strcasecmp` on two byte sequences: the difference
of the first pair of lower-cased bytes that differ, the terminating NUL
included. -/
def strcasecmp_bytes : List Nat → List Nat → Int
  | [], [] => 0
  | [], b :: _ => 0 - (tolower b : Int)
  | a :: _, [] => (tolower a : Int)
  | a :: as, b :: bs =>
    if tolower a = tolower b then strcasecmp_bytes as bs
    else (tolower a : Int) - (tolower b : Int)

/-- `strcasecmp` of `compat/posix_string.h` / libc. -/
def strcasecmp (s1 s2 : String) : Int := strcasecmp_bytes (c_str s1) (c_str s2)

/-- Reduction of an integer to the range of a 32-bit `int`. -/
def wrap32 (x : Int) : Int := (x + 2147483648) % 4294967296 - 2147483648

/-- `qstrcmp_plain` (dir_list.c:56-62). -/
def qstrcmp_plain (a b : string_list_elem) : Int := strcasecmp a.data b.data

/-- `qstrcmp_dir` (dir_list.c:64-76). -/
def qstrcmp_dir (a b : string_list_elem) : Int :=
  let a_type : Int := a.attr
  let b_type : Int := b.attr
  if a_type ≠ b_type then wrap32 (b_type - a_type)
  else strcasecmp a.data b.data

/-- libc `qsort`, which the C standard fixes only up to its contract (the
output is the input rearranged so that the comparator is never positive on an
earlier and a later element); modelled as insertion sort driven by the sign
of the comparator. -/
def qsort {α : Type} (compar : α → α → Int) (base : List α) : List α :=
  List.insertionSort (fun a b => compar a b ≤ 0) base

/-- `dir_list_sort` (dir_list.c:86-91); `none` is a `NULL` list. -/
def dir_list_sort (list : Option (List string_list_elem)) (dir_first : Bool) :
    Option (List string_list_elem) :=
  match list with
  | none => none
  | some elems => some (qsort (if dir_first then qstrcmp_dir else qstrcmp_plain) elems)

/-! ## A concrete environment -/

/-- What follows the last occurrence of `c`, when there is one. -/
def after_last (c : Char) : List Char → Option (List Char)
  | [] => none
  | x :: xs =>
    match after_last c xs with
    | some r => some r
    | none => if x = c then some xs else none

/-- Modelled from the spec: `path_get_extension` of `file_path.h`, absent from
the source tree: the part of the last path component after its last dot, empty
when it has none. -/
def std_path_get_extension (path : String) : String :=
  let base : List Char := (after_last '/' path.toList).getD path.toList
  match after_last '.' base with
  | some ext => String.mk ext
  | none => ""

/-- Modelled from the spec: `fill_pathname_join` of `file_path.h`, absent from
the source tree: directory and name joined with exactly one separator, whether
or not the directory already ends in one. -/
def std_fill_pathname_join (dir path : String) : String :=
  if dir = "" then path
  else if dir.toList.getLast? = some '/' then dir ++ path
  else dir ++ "/" ++ path

/-- Modelled from the spec: `path_is_compressed_file` of `file_path.h`, absent
from the source tree: the extension is a recognised archive format. -/
def std_path_is_compressed_file (path : String) : Bool :=
  let ext := std_path_get_extension path
  strcasecmp ext "7z" = 0 || strcasecmp ext "zip" = 0

/-- Tokens of a character sequence between delimiters, empty tokens dropped. -/
def split_tokens (delim : List Char) : List Char → List Char → List String
  | [], cur => if cur = [] then [] else [String.mk cur.reverse]
  | c :: cs, cur =>
    if c ∈ delim then
      (if cur = [] then split_tokens delim cs []
       else String.mk cur.reverse :: split_tokens delim cs [])
    else split_tokens delim cs (c :: cur)

/-- Modelled from the spec: `string_split` of `string_list.h`, absent from the
source tree: the filter set obtained by splitting the caller's string at the
delimiter. -/
def std_string_split (str delim : String) : Option (List String) :=
  some (split_tokens delim.toList str.toList [])

/-- Modelled from the spec: `string_list_find_elem_prefix` of `string_list.h`,
absent from the source tree: whether the extension is in the filter, compared
case-insensitively, bare or with the prefix in front; a `NULL` list has no
element. -/
def std_string_list_find_elem_prefix (list : Option (List String))
    ( pre elem : String) : Bool :=
  match list with
  | none => false
  | some elems =>
    elems.any (fun d => strcasecmp d elem = 0 || strcasecmp d (pre ++ elem) = 0)

/-- A concrete environment: the helpers as modelled above, a file system given
by its directory streams and its set of directories, an allocator that never
fails, and an empty indeterminate buffer. -/
def std_env (streams : String → Option (List dirent)) (dirs : List String) : Externals where
  path_is_compressed_file := std_path_is_compressed_file
  path_is_directory := fun p => decide (p ∈ dirs)
  path_get_extension := std_path_get_extension
  fill_pathname_join := std_fill_pathname_join
  string_split := std_string_split
  string_list_find_elem_prefix := std_string_list_find_elem_prefix
  string_list_new_ok := true
  string_list_append_ok := fun _ => true
  dir_stream := streams
  file_path_indeterminate := fun _ => ""

/-! ## Sample data -/

/-- A regular file as a POSIX or Win32 entry. -/
def file_entry (name : String) : dirent := ⟨name, d_type_t.DT_OTHER, false⟩

/-- A directory as a POSIX or Win32 entry. -/
def dir_entry (name : String) : dirent := ⟨name, d_type_t.DT_DIR, true⟩

/-- A file system whose only directory stream is that of `dir`. -/
def one_dir (dir : String) (entries : List dirent) : String → Option (List dirent) :=
  fun p => if p = dir then some entries else none

/-- The call of `parse_dir_entry` that iteration `i` of the loop of
`dir_list_new` makes for `entry` on the listing built so far
(dir_list.c:290-307). -/
def dir_list_new_call (X : Externals) (b : Backend) (dir : String)
    (include_dirs include_compressed : Bool) (ext_list : Option (List String))
    (i : Nat) (entry : dirent) (list : List string_list_elem) :
    Int × List string_list_elem :=
  parse_dir_entry X entry.d_name (X.fill_pathname_join dir entry.d_name)
    (dirent_is_directory X b (X.file_path_indeterminate i) entry)
    include_dirs include_compressed list ext_list (X.path_get_extension entry.d_name)

/-- The environment `std_env` on a machine where `string_list_append` gets its
memory only while the listing holds fewer than `cap` entries. -/
def std_env_cap (streams : String → Option (List dirent)) (dirs : List String)
    (cap : Nat) : Externals :=
  { std_env streams dirs with string_list_append_ok := fun n => decide (n < cap) }

/-- The environment `std_env` where the stack slot of `file_path` is reused:
at the start of an iteration the buffer still holds the joined path of the
previous entry of `dir`, and it is empty before the first one. -/
def std_env_stale (streams : String → Option (List dirent)) (dirs : List String)
    (dir : String) : Externals :=
  { std_env streams dirs with
    file_path_indeterminate := fun i =>
      match i, streams dir with
      | j + 1, some es =>
        match es.get? j with
        | some e => std_fill_pathname_join dir e.d_name
        | none => ""
      | _, _ => "" }

/-- An entry whose POSIX `d_type` is `DT_UNKNOWN`. -/
def unknown_entry (name : String) : dirent := ⟨name, d_type_t.DT_UNKNOWN, false⟩

/-- The directory `/d` of the specification's scenario: the files `a.txt` and
`B.ZIP` and the subdirectory `sub`. -/
def scenario_d : List dirent := [file_entry "a.txt", file_entry "B.ZIP", dir_entry "sub"]

/-! ## Theorems about `parse_dir_entry` -/

/-- C1: for a non-directory entry whose name is neither "." nor "..",
`parse_dir_entry` returns 1 with the listing unchanged exactly when a filter is
present and ((not compressed and not matched) or (not matched and not
include_compressed)); otherwise it attempts one append: on success it returns
0 with exactly one new entry (the joined path) at the end, on allocation
failure -1 with the listing unchanged. -/
theorem parse_dir_entry_skip_iff (X : Externals) (name file_path : String)
    (include_dirs include_compressed : Bool) (list : List string_list_elem)
    (ext_list : Option (List String)) (file_ext : String)
    (hdot : name ≠ ".") (hdotdot : name ≠ "..") :
    (parse_dir_entry X name file_path false include_dirs include_compressed list
        ext_list file_ext = (1, list) ↔
      (ext_list ≠ none ∧
        ((X.path_is_compressed_file file_path = false ∧
            X.string_list_find_elem_prefix ext_list "." file_ext = false) ∨
          (X.string_list_find_elem_prefix ext_list "." file_ext = false ∧
            include_compressed = false)))) ∧
    ((parse_dir_entry X name file_path false include_dirs include_compressed list
        ext_list file_ext).1 = 1 ↔
      (ext_list ≠ none ∧
        ((X.path_is_compressed_file file_path = false ∧
            X.string_list_find_elem_prefix ext_list "." file_ext = false) ∨
          (X.string_list_find_elem_prefix ext_list "." file_ext = false ∧
            include_compressed = false)))) ∧
    (¬ (ext_list ≠ none ∧
        ((X.path_is_compressed_file file_path = false ∧
            X.string_list_find_elem_prefix ext_list "." file_ext = false) ∨
          (X.string_list_find_elem_prefix ext_list "." file_ext = false ∧
            include_compressed = false))) →
      ∃ attr : Int,
        parse_dir_entry X name file_path false include_dirs include_compressed list
          ext_list file_ext =
        if X.string_list_append_ok list.length = true
        then (0, list ++ [⟨file_path, attr⟩]) else (-1, list)) := by
  cases hc : X.path_is_compressed_file file_path <;>
  cases hm : X.string_list_find_elem_prefix ext_list "." file_ext <;>
  cases hi : include_compressed <;>
  cases ha : X.string_list_append_ok list.length <;>
  cases ext_list <;>
  simp [parse_dir_entry, string_list_append, hc, hm, ha, hdot, hdotdot]

/-- Witness for C1: with filter "txt" and include_compressed off, the plain
file `b.png` is skipped and the listing stays empty. -/
theorem parse_dir_entry_skip_iff_witness :
    ("b.png" ≠ "." ∧ "b.png" ≠ "..") ∧
    parse_dir_entry (std_env (fun _ => none) []) "b.png" "/d/b.png" false true false []
      (some ["txt"]) "png" = (1, []) :=
  ⟨⟨by decide, by decide⟩,
    (parse_dir_entry_skip_iff (std_env (fun _ => none) []) "b.png" "/d/b.png" true false []
      (some ["txt"]) "png" (by decide) (by decide)).1.2 (by decide)⟩

/-- C2: a non-directory entry (name not "." or "..") whose extension the
filter matches is appended with kind PLAIN_FILE, whatever include_compressed
is and whether or not the entry is also recognised as a compressed archive
(on allocation failure the call returns -1 and appends nothing). -/
theorem parse_dir_entry_filter_match_plain (X : Externals) (name file_path : String)
    (include_dirs include_compressed : Bool) (list : List string_list_elem)
    (ext_list : Option (List String)) (file_ext : String)
    (hdot : name ≠ ".") (hdotdot : name ≠ "..")
    (hmatch : X.string_list_find_elem_prefix ext_list "." file_ext = true) :
    parse_dir_entry X name file_path false include_dirs include_compressed list
        ext_list file_ext =
      if X.string_list_append_ok list.length = true
      then (0, list ++ [⟨file_path, RARCH_PLAIN_FILE⟩]) else (-1, list) := by
  cases hc : X.path_is_compressed_file file_path <;>
  cases hi : include_compressed <;>
  cases ha : X.string_list_append_ok list.length <;>
  simp [parse_dir_entry, string_list_append, hc, hmatch, ha, hdot, hdotdot]

/-- Witness for C2: `game.zip` is a recognised archive and "zip" is in the
filter; it is listed as PLAIN_FILE. -/
theorem parse_dir_entry_filter_match_plain_witness :
    std_path_is_compressed_file "/d/game.zip" = true ∧
    parse_dir_entry (std_env (fun _ => none) []) "game.zip" "/d/game.zip" false true true []
      (some ["zip"]) "zip" = (0, [⟨"/d/game.zip", RARCH_PLAIN_FILE⟩]) :=
  ⟨by decide,
    parse_dir_entry_filter_match_plain (std_env (fun _ => none) []) "game.zip" "/d/game.zip"
      true true [] (some ["zip"]) "zip" (by decide) (by decide) (by decide)⟩

/-- Counterexample to C4: without a filter the plain file `a.txt`, which is
not a recognised archive, is appended with kind UNSET, not PLAIN_FILE. -/
theorem parse_dir_entry_no_filter_plain_counterexample :
    std_path_is_compressed_file "/d/a.txt" = false ∧
    parse_dir_entry (std_env (fun _ => none) []) "a.txt" "/d/a.txt" false true true []
      none "txt" = (0, [⟨"/d/a.txt", RARCH_FILETYPE_UNSET⟩]) ∧
    parse_dir_entry (std_env (fun _ => none) []) "a.txt" "/d/a.txt" false true true []
      none "txt" ≠ (0, [⟨"/d/a.txt", RARCH_PLAIN_FILE⟩]) := by
  decide

/-- C4, amended: with no filter (`ext_list` is `NULL`, in which
`string_list_find_elem_prefix` finds nothing) every non-directory entry whose
name is not "." or ".." is accepted; it is appended with kind
COMPRESSED_ARCHIVE when `path_is_compressed_file` reports it compressed and
with kind UNSET otherwise (on allocation failure the call returns -1 and
appends nothing). -/
theorem parse_dir_entry_no_filter (X : Externals) (name file_path : String)
    (include_dirs include_compressed : Bool) (list : List string_list_elem)
    (file_ext : String)
    (hdot : name ≠ ".") (hdotdot : name ≠ "..")
    (hnull : X.string_list_find_elem_prefix none "." file_ext = false) :
    parse_dir_entry X name file_path false include_dirs include_compressed list
        none file_ext =
      if X.string_list_append_ok list.length = true
      then (0, list ++ [⟨file_path,
        if X.path_is_compressed_file file_path = true then RARCH_COMPRESSED_ARCHIVE
        else RARCH_FILETYPE_UNSET⟩])
      else (-1, list) := by
  cases hc : X.path_is_compressed_file file_path <;>
  cases ha : X.string_list_append_ok list.length <;>
  simp [parse_dir_entry, string_list_append, hc, hnull, ha, hdot, hdotdot]

/-- Witness for C4 (amended): the archive `B.ZIP`, listed without a filter, is
a COMPRESSED_ARCHIVE. -/
theorem parse_dir_entry_no_filter_witness :
    std_string_list_find_elem_prefix none "." "ZIP" = false ∧
    parse_dir_entry (std_env (fun _ => none) []) "B.ZIP" "/d/B.ZIP" false false false []
      none "ZIP" = (0, [⟨"/d/B.ZIP", RARCH_COMPRESSED_ARCHIVE⟩]) :=
  ⟨by decide,
    parse_dir_entry_no_filter (std_env (fun _ => none) []) "B.ZIP" "/d/B.ZIP" false false []
      "ZIP" (by decide) (by decide) (by decide)⟩

/-- Counterexample to C5: with filter "txt" and include_compressed off, the
archive `B.ZIP` (recognised as compressed, extension not in the filter) is
skipped: the call returns 1 and nothing is appended. -/
theorem parse_dir_entry_compressed_counterexample :
    std_path_is_compressed_file "/d/B.ZIP" = true ∧
    std_string_list_find_elem_prefix (some ["txt"]) "." "ZIP" = false ∧
    parse_dir_entry (std_env (fun _ => none) []) "B.ZIP" "/d/B.ZIP" false true false []
      (some ["txt"]) "ZIP" = (1, []) := by
  decide

/-- C5, amended: a non-directory entry (name not "." or "..") that is
recognised as a compressed archive and whose extension is not in the filter
is appended with kind COMPRESSED_ARCHIVE when include_compressed is true (or
no filter list is present), and is skipped (return 1, listing unchanged) when
a filter list is present and include_compressed is false. -/
theorem parse_dir_entry_compressed_unmatched (X : Externals) (name file_path : String)
    (include_dirs include_compressed : Bool) (list : List string_list_elem)
    (ext_list : Option (List String)) (file_ext : String)
    (hdot : name ≠ ".") (hdotdot : name ≠ "..")
    (hcomp : X.path_is_compressed_file file_path = true)
    (hmiss : X.string_list_find_elem_prefix ext_list "." file_ext = false) :
    parse_dir_entry X name file_path false include_dirs include_compressed list
        ext_list file_ext =
      if ext_list.isSome = true ∧ include_compressed = false then (1, list)
      else if X.string_list_append_ok list.length = true
      then (0, list ++ [⟨file_path, RARCH_COMPRESSED_ARCHIVE⟩])
      else (-1, list) := by
  cases hi : include_compressed <;>
  cases ha : X.string_list_append_ok list.length <;>
  cases ext_list <;>
  simp [parse_dir_entry, string_list_append, hcomp, hmiss, ha, hdot, hdotdot]

/-- Witness for C5 (amended): with filter "txt" and include_compressed on,
`B.ZIP` is listed as COMPRESSED_ARCHIVE. -/
theorem parse_dir_entry_compressed_unmatched_witness :
    std_path_is_compressed_file "/d/B.ZIP" = true ∧
    parse_dir_entry (std_env (fun _ => none) []) "B.ZIP" "/d/B.ZIP" false true true []
      (some ["txt"]) "ZIP" = (0, [⟨"/d/B.ZIP", RARCH_COMPRESSED_ARCHIVE⟩]) :=
  ⟨by decide,
    parse_dir_entry_compressed_unmatched (std_env (fun _ => none) []) "B.ZIP" "/d/B.ZIP"
      true true [] (some ["txt"]) "ZIP" (by decide) (by decide) (by decide) (by decide)⟩

/-! ## Theorems about `dir_list_new` -/

/-- Where an element of the listing after `parse_dir_entry` comes from: it was
there before, or it is the one new element, whose path and kind are fixed by
the branch taken. -/
theorem parse_dir_entry_mem (X : Externals) (name file_path : String)
    (is_dir include_dirs include_compressed : Bool) (list : List string_list_elem)
    (ext_list : Option (List String)) (file_ext : String) (x : string_list_elem)
    (hx : x ∈ (parse_dir_entry X name file_path is_dir include_dirs include_compressed
      list ext_list file_ext).2) :
    x ∈ list ∨
    (x.data = file_path ∧ name ≠ "." ∧ name ≠ ".." ∧
      ((is_dir = true ∧ include_dirs = true ∧ x.attr = RARCH_DIRECTORY) ∨
       (is_dir = false ∧ X.string_list_find_elem_prefix ext_list "." file_ext = true ∧
          x.attr = RARCH_PLAIN_FILE) ∨
       (is_dir = false ∧ X.string_list_find_elem_prefix ext_list "." file_ext = false ∧
          X.path_is_compressed_file file_path = true ∧
          (ext_list = none ∨ include_compressed = true) ∧
          x.attr = RARCH_COMPRESSED_ARCHIVE) ∨
       (is_dir = false ∧ X.string_list_find_elem_prefix ext_list "." file_ext = false ∧
          X.path_is_compressed_file file_path = false ∧ ext_list = none ∧
          x.attr = RARCH_FILETYPE_UNSET))) := by
  by_cases h1 : name = "."
  · left; simpa [parse_dir_entry, h1] using hx
  by_cases h2 : name = ".."
  · left; simpa [parse_dir_entry, h2] using hx
  revert hx
  cases is_dir <;> cases include_dirs <;> cases include_compressed <;>
  cases hc : X.path_is_compressed_file file_path <;>
  cases hm : X.string_list_find_elem_prefix ext_list "." file_ext <;>
  cases ha : X.string_list_append_ok list.length <;>
  cases ext_list <;>
  simp [parse_dir_entry, string_list_append, hc, hm, ha, h1, h2] <;>
  first
  | (intro hx; exact Or.inl hx)
  | (rintro (hx | rfl) <;> simp [*])

/-- Loop invariant of `dir_list_new`: a property that every element appended
by `parse_dir_entry` has is shared by every element the loop adds. -/
theorem dir_list_new_loop_mem (X : Externals) (b : Backend) (dir : String)
    (include_dirs include_compressed : Bool) (ext_list : Option (List String))
    (Q : string_list_elem → Prop) :
    ∀ (es : List dirent) (i : Nat) (list out : List string_list_elem),
      (∀ entry ∈ es, ∀ (is_dir : Bool) (l : List string_list_elem) (x : string_list_elem),
        x ∈ (parse_dir_entry X entry.d_name (X.fill_pathname_join dir entry.d_name) is_dir
          include_dirs include_compressed l ext_list
          (X.path_get_extension entry.d_name)).2 → x ∈ l ∨ Q x) →
      dir_list_new_loop X b dir include_dirs include_compressed ext_list i es list
        = some out →
      ∀ x ∈ out, x ∈ list ∨ Q x := by
  intro es
  induction es with
  | nil =>
    intro i list out _ h x hx
    simp [dir_list_new_loop] at h
    subst h
    exact Or.inl hx
  | cons e es ih =>
    intro i list out hstep h x hx
    simp only [dir_list_new_loop] at h
    split at h
    · cases h
    · rcases ih (i + 1) _ out
        (fun entry hmem => hstep entry (List.mem_cons_of_mem _ hmem)) h x hx with h1 | h2
      · exact hstep e (List.mem_cons_self _ _) _ _ _ h1
      · exact Or.inr h2

/-- What `dirent_opendir` leaves pending was yielded by the stream. -/
theorem dirent_opendir_pending (b : Backend) (stream : Option (List dirent))
    (e : dirent) (he : e ∈ (dirent_opendir b stream).pending) :
    ∃ es, stream = some es ∧ e ∈ es := by
  cases b <;> cases stream with
  | none => simp [dirent_opendir] at he
  | some es =>
    first
    | (cases es with
       | nil => simp [dirent_opendir] at he
       | cons a as =>
         simp [dirent_opendir] at he
         exact ⟨a :: as, rfl, List.mem_cons_of_mem _ he⟩)
    | (simp [dirent_opendir] at he
       exact ⟨es, rfl, he⟩)

/-- A listing is returned only by a completed run of the loop. -/
theorem dir_list_new_some (X : Externals) (b : Backend) (dir : String)
    (ext : Option String) (include_dirs include_compressed : Bool)
    (l : List string_list_elem)
    (h : (dir_list_new X b dir ext include_dirs include_compressed).list = some l) :
    dir_list_new_loop X b dir include_dirs include_compressed (dir_list_new_ext_list X ext) 0
      (dirent_opendir b (X.dir_stream dir)).pending [] = some l := by
  unfold dir_list_new at h
  split at h
  · cases h
  · simp only at h
    split at h
    · cases h
    · split at h
      · cases h
      · rename_i heq
        simp only [Option.some.injEq] at h
        rw [heq, h]

/-- Every entry of a returned listing was produced from an entry of the
directory stream whose name is neither "." nor "..": its path is the joined
path of that entry, and its kind is the one of the branch taken. -/
theorem dir_list_new_mem (X : Externals) (b : Backend) (dir : String)
    (ext : Option String) (include_dirs include_compressed : Bool)
    (l : List string_list_elem)
    (h : (dir_list_new X b dir ext include_dirs include_compressed).list = some l)
    (x : string_list_elem) (hx : x ∈ l) :
    ∃ es entry, X.dir_stream dir = some es ∧ entry ∈ es ∧
      entry.d_name ≠ "." ∧ entry.d_name ≠ ".." ∧
      x.data = X.fill_pathname_join dir entry.d_name ∧
      ((include_dirs = true ∧ x.attr = RARCH_DIRECTORY) ∨
       x.attr = RARCH_PLAIN_FILE ∨
       (X.path_is_compressed_file x.data = true ∧
          (dir_list_new_ext_list X ext = none ∨ include_compressed = true) ∧
          x.attr = RARCH_COMPRESSED_ARCHIVE) ∨
       (X.path_is_compressed_file x.data = false ∧ dir_list_new_ext_list X ext = none ∧
          x.attr = RARCH_FILETYPE_UNSET)) := by
  have hloop := dir_list_new_some X b dir ext include_dirs include_compressed l h
  have key := dir_list_new_loop_mem X b dir include_dirs include_compressed
    (dir_list_new_ext_list X ext)
    (fun x => ∃ es entry, X.dir_stream dir = some es ∧ entry ∈ es ∧
      entry.d_name ≠ "." ∧ entry.d_name ≠ ".." ∧
      x.data = X.fill_pathname_join dir entry.d_name ∧
      ((include_dirs = true ∧ x.attr = RARCH_DIRECTORY) ∨
       x.attr = RARCH_PLAIN_FILE ∨
       (X.path_is_compressed_file x.data = true ∧
          (dir_list_new_ext_list X ext = none ∨ include_compressed = true) ∧
          x.attr = RARCH_COMPRESSED_ARCHIVE) ∨
       (X.path_is_compressed_file x.data = false ∧ dir_list_new_ext_list X ext = none ∧
          x.attr = RARCH_FILETYPE_UNSET)))
    (dirent_opendir b (X.dir_stream dir)).pending 0 [] l
    (by
      intro entry hentry is_dir l0 y hy
      rcases parse_dir_entry_mem X _ _ _ _ _ _ _ _ y hy with h0 | ⟨hd, hn1, hn2, hk⟩
      · exact Or.inl h0
      · right
        obtain ⟨es, hes, hmem⟩ := dirent_opendir_pending b _ entry hentry
        refine ⟨es, entry, hes, hmem, hn1, hn2, hd, ?_⟩
        rw [hd]
        rcases hk with ⟨_, h2, h3⟩ | ⟨_, _, h3⟩ | ⟨_, _, h3, h4, h5⟩ | ⟨_, _, h3, h4, h5⟩
        · exact Or.inl ⟨h2, h3⟩
        · exact Or.inr (Or.inl h3)
        · exact Or.inr (Or.inr (Or.inl ⟨h3, h4, h5⟩))
        · exact Or.inr (Or.inr (Or.inr ⟨h3, h4, h5⟩)))
    hloop x hx
  rcases key with h0 | h1
  · simp at h0
  · exact h1

/-- Counterexample to C3: listing `/d`, which holds the plain file `a.txt`,
without a filter returns an entry of kind UNSET. -/
theorem dir_list_new_unset_counterexample :
    (dir_list_new (std_env (one_dir "/d" [file_entry "a.txt"]) []) Backend.POSIX_DT "/d"
      none true true).list = some [⟨"/d/a.txt", RARCH_FILETYPE_UNSET⟩] ∧
    ¬ (∀ l, (dir_list_new (std_env (one_dir "/d" [file_entry "a.txt"]) []) Backend.POSIX_DT
          "/d" none true true).list = some l →
        ∀ e ∈ l, e.attr = RARCH_PLAIN_FILE ∨ e.attr = RARCH_DIRECTORY ∨
          e.attr = RARCH_COMPRESSED_ARCHIVE) := by
  have h : (dir_list_new (std_env (one_dir "/d" [file_entry "a.txt"]) []) Backend.POSIX_DT
      "/d" none true true).list = some [⟨"/d/a.txt", RARCH_FILETYPE_UNSET⟩] := by decide
  refine ⟨h, fun hall => ?_⟩
  have := hall _ h ⟨"/d/a.txt", RARCH_FILETYPE_UNSET⟩ (List.mem_singleton.mpr rfl)
  revert this
  decide

/-- C3, amended: every entry of a listing returned by `dir_list_new` has kind
UNSET, PLAIN_FILE, DIRECTORY or COMPRESSED_ARCHIVE; when a filter list is
present no entry has kind UNSET; and an entry has kind UNSET only when no
filter list is present and `path_is_compressed_file` is false on its path. -/
theorem dir_list_new_kinds (X : Externals) (b : Backend) (dir : String)
    (ext : Option String) (include_dirs include_compressed : Bool)
    (l : List string_list_elem)
    (h : (dir_list_new X b dir ext include_dirs include_compressed).list = some l)
    (e : string_list_elem) (he : e ∈ l) :
    (e.attr = RARCH_FILETYPE_UNSET ∨ e.attr = RARCH_PLAIN_FILE ∨
      e.attr = RARCH_DIRECTORY ∨ e.attr = RARCH_COMPRESSED_ARCHIVE) ∧
    (dir_list_new_ext_list X ext ≠ none →
      e.attr = RARCH_PLAIN_FILE ∨ e.attr = RARCH_DIRECTORY ∨
        e.attr = RARCH_COMPRESSED_ARCHIVE) ∧
    (e.attr = RARCH_FILETYPE_UNSET →
      dir_list_new_ext_list X ext = none ∧ X.path_is_compressed_file e.data = false) := by
  obtain ⟨es, entry, _, _, _, _, _, hk⟩ :=
    dir_list_new_mem X b dir ext include_dirs include_compressed l h e he
  rcases hk with ⟨_, h1⟩ | h1 | ⟨_, _, h1⟩ | ⟨h2, h3, h1⟩
  · simp [h1, RARCH_DIRECTORY, RARCH_FILETYPE_UNSET]
  · simp [h1, RARCH_PLAIN_FILE, RARCH_FILETYPE_UNSET]
  · simp [h1, RARCH_COMPRESSED_ARCHIVE, RARCH_FILETYPE_UNSET]
  · simp [h1, h2, h3]

/-- Witness for C3 (amended): with filter "txt" the listing of `/d` is the
single PLAIN_FILE entry for `a.txt`. -/
theorem dir_list_new_kinds_witness :
    (dir_list_new (std_env (one_dir "/d" [file_entry "a.txt", file_entry "b.png"]) [])
      Backend.POSIX_DT "/d" (some "txt") true true).list
        = some [⟨"/d/a.txt", RARCH_PLAIN_FILE⟩] ∧
    ((⟨"/d/a.txt", RARCH_PLAIN_FILE⟩ : string_list_elem).attr = RARCH_PLAIN_FILE ∨
      (⟨"/d/a.txt", RARCH_PLAIN_FILE⟩ : string_list_elem).attr = RARCH_DIRECTORY ∨
      (⟨"/d/a.txt", RARCH_PLAIN_FILE⟩ : string_list_elem).attr = RARCH_COMPRESSED_ARCHIVE) :=
  ⟨by decide,
    (dir_list_new_kinds (std_env (one_dir "/d" [file_entry "a.txt", file_entry "b.png"]) [])
      Backend.POSIX_DT "/d" (some "txt") true true [⟨"/d/a.txt", RARCH_PLAIN_FILE⟩]
      (by decide) ⟨"/d/a.txt", RARCH_PLAIN_FILE⟩ (List.mem_singleton.mpr rfl)).2.1
      (by decide)⟩

/-- C6: `parse_dir_entry` appends an entry of kind DIRECTORY exactly when the
entry is a directory, its name is neither "." nor "..", and include_dirs is
true (and the append gets its memory), whatever the filter, the archive test
and include_compressed say; the entry appended is then the joined path with
kind DIRECTORY; and with include_dirs false no listing returned by
`dir_list_new` holds an entry of kind DIRECTORY. -/
theorem parse_dir_entry_directory_iff (X : Externals) (name file_path : String)
    (is_dir include_dirs include_compressed : Bool) (list : List string_list_elem)
    (ext_list : Option (List String)) (file_ext : String) :
    ((∃ p, (parse_dir_entry X name file_path is_dir include_dirs include_compressed list
          ext_list file_ext).2 = list ++ [⟨p, RARCH_DIRECTORY⟩]) ↔
      (is_dir = true ∧ name ≠ "." ∧ name ≠ ".." ∧ include_dirs = true ∧
        X.string_list_append_ok list.length = true)) ∧
    ((is_dir = true ∧ name ≠ "." ∧ name ≠ ".." ∧ include_dirs = true) →
      parse_dir_entry X name file_path is_dir include_dirs include_compressed list
          ext_list file_ext =
        if X.string_list_append_ok list.length = true
        then (0, list ++ [⟨file_path, RARCH_DIRECTORY⟩]) else (-1, list)) ∧
    (∀ (b : Backend) (dir : String) (ext : Option String) (l : List string_list_elem),
      (dir_list_new X b dir ext false include_compressed).list = some l →
      ∀ e ∈ l, e.attr ≠ RARCH_DIRECTORY) := by
  refine ⟨?_, ?_, ?_⟩
  · by_cases h1 : name = "."
    · simp [parse_dir_entry, h1]
    by_cases h2 : name = ".."
    · simp [parse_dir_entry, h2]
    cases is_dir <;> cases include_dirs <;> cases include_compressed <;>
    cases hc : X.path_is_compressed_file file_path <;>
    cases hm : X.string_list_find_elem_prefix ext_list "." file_ext <;>
    cases ha : X.string_list_append_ok list.length <;>
    cases ext_list <;>
    simp [parse_dir_entry, string_list_append, hc, hm, ha, h1, h2,
      RARCH_DIRECTORY, RARCH_FILETYPE_UNSET, RARCH_PLAIN_FILE, RARCH_COMPRESSED_ARCHIVE]
  · rintro ⟨rfl, h1, h2, rfl⟩
    cases ha : X.string_list_append_ok list.length <;>
    simp [parse_dir_entry, string_list_append, ha, h1, h2]
  · intro b dir ext l h e he
    obtain ⟨es, entry, _, _, _, _, _, hk⟩ :=
      dir_list_new_mem X b dir ext false include_compressed l h e he
    rcases hk with ⟨h0, _⟩ | h1 | ⟨_, _, h1⟩ | ⟨_, _, h1⟩
    · cases h0
    · simp [h1, RARCH_DIRECTORY, RARCH_PLAIN_FILE]
    · simp [h1, RARCH_DIRECTORY, RARCH_COMPRESSED_ARCHIVE]
    · simp [h1, RARCH_DIRECTORY, RARCH_FILETYPE_UNSET]

/-- Witness for C6: the directory `roms.zip`, whose name has an archive
extension that the filter "txt" does not match, is listed as DIRECTORY. -/
theorem parse_dir_entry_directory_iff_witness :
    std_path_is_compressed_file "/d/roms.zip" = true ∧
    parse_dir_entry (std_env (fun _ => none) []) "roms.zip" "/d/roms.zip" true true false []
      (some ["txt"]) "zip" = (0, [⟨"/d/roms.zip", RARCH_DIRECTORY⟩]) :=
  ⟨by decide,
    (parse_dir_entry_directory_iff (std_env (fun _ => none) []) "roms.zip" "/d/roms.zip"
      true true false [] (some ["txt"]) "zip").2.1 ⟨rfl, by decide, by decide, rfl⟩⟩

/-- An entry named "." or ".." is skipped whatever the other arguments are. -/
theorem parse_dir_entry_dot (X : Externals) (name file_path : String)
    (is_dir include_dirs include_compressed : Bool) (list : List string_list_elem)
    (ext_list : Option (List String)) (file_ext : String)
    (hname : name = "." ∨ name = "..") :
    parse_dir_entry X name file_path is_dir include_dirs include_compressed list
      ext_list file_ext = (1, list) := by
  rcases hname with rfl | rfl <;> simp [parse_dir_entry]

/-- The loop leaves the listing as it is on a stream of "." and ".." only. -/
theorem dir_list_new_loop_dots (X : Externals) (b : Backend) (dir : String)
    (include_dirs include_compressed : Bool) (ext_list : Option (List String)) :
    ∀ (es : List dirent) (i : Nat) (list : List string_list_elem),
      (∀ entry ∈ es, entry.d_name = "." ∨ entry.d_name = "..") →
      dir_list_new_loop X b dir include_dirs include_compressed ext_list i es list
        = some list := by
  intro es
  induction es with
  | nil => intro i list _; simp [dir_list_new_loop]
  | cons e es ih =>
    intro i list hall
    have he := hall e (List.mem_cons_self _ _)
    simp only [dir_list_new_loop, parse_dir_entry_dot X _ _ _ _ _ _ _ _ he]
    simpa using ih (i + 1) list (fun entry hmem => hall entry (List.mem_cons_of_mem _ hmem))

/-- C7: an entry whose raw name is "." or ".." makes `parse_dir_entry` return
1 without appending, whatever is_dir, the filter and the flags are; every
entry of a listing returned by `dir_list_new` is the joined path of a stream
entry named neither "." nor ".."; and when the container allocation and the
open step succeed on a directory that yields only "." and "..", the listing
returned is non-null and empty. -/
theorem dot_entries_never_listed (X : Externals) (b : Backend) (dir : String)
    (ext : Option String) (include_dirs include_compressed : Bool) :
    (∀ (name file_path : String) (is_dir : Bool) (list : List string_list_elem)
        (ext_list : Option (List String)) (file_ext : String),
      name = "." ∨ name = ".." →
      parse_dir_entry X name file_path is_dir include_dirs include_compressed list
        ext_list file_ext = (1, list)) ∧
    (∀ l, (dir_list_new X b dir ext include_dirs include_compressed).list = some l →
      ∀ e ∈ l, ∃ es entry, X.dir_stream dir = some es ∧ entry ∈ es ∧
        entry.d_name ≠ "." ∧ entry.d_name ≠ ".." ∧
        e.data = X.fill_pathname_join dir entry.d_name) ∧
    (X.string_list_new_ok = true →
      dirent_error (dirent_opendir b (X.dir_stream dir)) = false →
      (∀ es, X.dir_stream dir = some es →
        ∀ entry ∈ es, entry.d_name = "." ∨ entry.d_name = "..") →
      (dir_list_new X b dir ext include_dirs include_compressed).list = some []) := by
  refine ⟨?_, ?_, ?_⟩
  · intro name file_path is_dir list ext_list file_ext hname
    exact parse_dir_entry_dot X name file_path is_dir include_dirs include_compressed list
      ext_list file_ext hname
  · intro l h e he
    obtain ⟨es, entry, h1, h2, h3, h4, h5, _⟩ :=
      dir_list_new_mem X b dir ext include_dirs include_compressed l h e he
    exact ⟨es, entry, h1, h2, h3, h4, h5⟩
  · intro hnew hopen hall
    have hloop := dir_list_new_loop_dots X b dir include_dirs include_compressed
      (dir_list_new_ext_list X ext) (dirent_opendir b (X.dir_stream dir)).pending 0 []
      (by
        intro entry hentry
        obtain ⟨es, hes, hmem⟩ := dirent_opendir_pending b _ entry hentry
        exact hall es hes entry hmem)
    simp [dir_list_new, hnew, hopen, hloop]

/-- Witness for C7: a directory that yields only "." and ".." lists as the
empty, non-null listing, on POSIX and on Win32. -/
theorem dot_entries_never_listed_witness :
    (dir_list_new (std_env (one_dir "/e" [dir_entry ".", dir_entry ".."]) [])
      Backend.POSIX_DT "/e" (some "txt") true true).list = some [] ∧
    (dir_list_new (std_env (one_dir "/e" [dir_entry ".", dir_entry ".."]) [])
      Backend.WIN32 "/e" none true false).list = some [] :=
  ⟨(dot_entries_never_listed (std_env (one_dir "/e" [dir_entry ".", dir_entry ".."]) [])
      Backend.POSIX_DT "/e" (some "txt") true true).2.2 rfl (by decide) (by decide),
    (dot_entries_never_listed (std_env (one_dir "/e" [dir_entry ".", dir_entry ".."]) [])
      Backend.WIN32 "/e" none true false).2.2 rfl (by decide) (by decide)⟩

/-- C8, the code at a failing input: on Win32 the entry that `FindFirstFile`
finds is overwritten by the first `FindNextFile` before it is looked at. In
`D:/`, which yields `a.txt` then `b.txt`, both accepted by `parse_dir_entry`
under the filter "txt", the Win32 listing lacks `a.txt`; the POSIX loop over
the same stream lists both. -/
theorem dir_list_new_win32_skips_first_entry :
    (dirent_opendir Backend.WIN32 (some [file_entry "a.txt", file_entry "b.txt"])).entry
      = some (file_entry "a.txt") ∧
    parse_dir_entry (std_env (one_dir "D:/" [file_entry "a.txt", file_entry "b.txt"]) [])
      "a.txt" "D:/a.txt" false false false [] (some ["txt"]) "txt"
      = (0, [⟨"D:/a.txt", RARCH_PLAIN_FILE⟩]) ∧
    (dir_list_new (std_env (one_dir "D:/" [file_entry "a.txt", file_entry "b.txt"]) [])
      Backend.WIN32 "D:/" (some "txt") false false).list
      = some [⟨"D:/b.txt", RARCH_PLAIN_FILE⟩] ∧
    (dir_list_new (std_env (one_dir "D:/" [file_entry "a.txt", file_entry "b.txt"]) [])
      Backend.POSIX_DT "D:/" (some "txt") false false).list
      = some [⟨"D:/a.txt", RARCH_PLAIN_FILE⟩, ⟨"D:/b.txt", RARCH_PLAIN_FILE⟩] := by
  decide

/-! ## Theorems about the comparators and `dir_list_sort` -/

/-- Lower-casing never produces the NUL byte from another byte. -/
theorem tolower_ne_zero {c : Nat} (h : c ≠ 0) : tolower c ≠ 0 := by
  unfold tolower
  split <;> omega

/-- The bytes of a C string do not contain NUL. -/
theorem c_str_ne_zero (s : String) : ∀ x ∈ c_str s, x ≠ 0 := by
  intro x hx
  have := List.mem_takeWhile_imp hx
  simpa using this

/-- Swapping the arguments of the comparison loop negates its result. -/
theorem strcasecmp_bytes_swap : ∀ a b : List Nat,
    strcasecmp_bytes b a = - strcasecmp_bytes a b
  | [], [] => by simp [strcasecmp_bytes]
  | [], _ :: _ => by simp [strcasecmp_bytes]
  | _ :: _, [] => by simp [strcasecmp_bytes]
  | a :: as, b :: bs => by
    simp only [strcasecmp_bytes]
    by_cases h : tolower a = tolower b
    · simp [h, strcasecmp_bytes_swap as bs]
    · have h2 : tolower b ≠ tolower a := fun e => h e.symm
      simp [h, h2]

/-- The comparison loop is transitive on NUL-free byte sequences. -/
theorem strcasecmp_bytes_trans : ∀ a b c : List Nat,
    (∀ x ∈ a, x ≠ 0) → (∀ x ∈ b, x ≠ 0) → (∀ x ∈ c, x ≠ 0) →
    strcasecmp_bytes a b ≤ 0 → strcasecmp_bytes b c ≤ 0 → strcasecmp_bytes a c ≤ 0
  | [], _, [], _, _, _, _, _ => by simp [strcasecmp_bytes]
  | [], _, _ :: _, _, _, _, _, _ => by simp [strcasecmp_bytes]
  | x :: _, [], _, ha, _, _, hab, _ => by
    have := tolower_ne_zero (ha x (List.mem_cons_self _ _))
    simp only [strcasecmp_bytes] at hab
    omega
  | _ :: _, y :: _, [], _, hb, _, _, hbc => by
    have := tolower_ne_zero (hb y (List.mem_cons_self _ _))
    simp only [strcasecmp_bytes] at hbc
    omega
  | x :: as, y :: bs, z :: cs, ha, hb, hc, hab, hbc => by
    simp only [strcasecmp_bytes] at hab hbc ⊢
    have ih := strcasecmp_bytes_trans as bs cs
      (fun u hu => ha u (List.mem_cons_of_mem _ hu))
      (fun u hu => hb u (List.mem_cons_of_mem _ hu))
      (fun u hu => hc u (List.mem_cons_of_mem _ hu))
    by_cases h1 : tolower x = tolower y <;> by_cases h2 : tolower y = tolower z
    · have h3 : tolower x = tolower z := h1.trans h2
      rw [if_pos h1] at hab
      rw [if_pos h2] at hbc
      rw [if_pos h3]
      exact ih hab hbc
    · have h3 : tolower x ≠ tolower z := fun e => h2 (h1.symm.trans e)
      simp only [h1, h2, h3, if_true, if_false] at hab hbc ⊢
      omega
    · have h3 : tolower x ≠ tolower z := fun e => h1 (e.trans h2.symm)
      simp only [h1, h2, h3, if_true, if_false] at hab hbc ⊢
      omega
    · simp only [h1, h2, if_false] at hab hbc
      have h3 : tolower x ≠ tolower z := by omega
      simp only [h3, if_false]
      omega

/-- Swapping the arguments of `strcasecmp` negates its result. -/
theorem strcasecmp_swap (s t : String) : strcasecmp t s = - strcasecmp s t :=
  strcasecmp_bytes_swap (c_str s) (c_str t)

/-- Of two strings one is below the other under `strcasecmp`. -/
theorem strcasecmp_total (s t : String) : strcasecmp s t ≤ 0 ∨ strcasecmp t s ≤ 0 := by
  have := strcasecmp_swap s t
  omega

/-- The order `strcasecmp s t ≤ 0` is transitive. -/
theorem strcasecmp_trans (s t u : String) (h1 : strcasecmp s t ≤ 0)
    (h2 : strcasecmp t u ≤ 0) : strcasecmp s u ≤ 0 :=
  strcasecmp_bytes_trans (c_str s) (c_str t) (c_str u)
    (c_str_ne_zero s) (c_str_ne_zero t) (c_str_ne_zero u) h1 h2

/-- Inserting into a sorted list keeps it sorted, for a relation that is total
and transitive on the elements at hand. -/
theorem sorted_orderedInsert_on {α : Type} (r : α → α → Prop) [DecidableRel r]
    (S : α → Prop)
    (htot : ∀ x y, S x → S y → r x y ∨ r y x)
    (htrans : ∀ x y z, S x → S y → S z → r x y → r y z → r x z) (a : α) :
    ∀ l : List α, S a → (∀ x ∈ l, S x) → l.Sorted r → (l.orderedInsert r a).Sorted r := by
  intro l
  induction l with
  | nil => intro _ _ _; simp
  | cons b l ih =>
    intro ha hl hs
    have hb : S b := hl b (List.mem_cons_self _ _)
    have hl2 : ∀ x ∈ l, S x := fun x hx => hl x (List.mem_cons_of_mem _ hx)
    obtain ⟨hbl, hsl⟩ := List.sorted_cons.mp hs
    by_cases h : r a b
    · simp only [List.orderedInsert, h, if_true]
      refine List.sorted_cons.mpr ⟨?_, hs⟩
      intro c hc
      rcases List.mem_cons.mp hc with rfl | hc
      · exact h
      · exact htrans a b c ha hb (hl2 c hc) h (hbl c hc)
    · have hba : r b a := (htot a b ha hb).resolve_left h
      simp only [List.orderedInsert, h, if_false]
      refine List.sorted_cons.mpr ⟨?_, ih ha hl2 hsl⟩
      intro c hc
      rcases (List.mem_orderedInsert r).mp hc with rfl | hc
      · exact hba
      · exact hbl c hc

/-- The contract of `qsort` for the model: the output is a rearrangement of
the input, and it is ordered by the comparator whenever the comparator is
total and transitive on the elements of the input. -/
theorem qsort_sorted_on {α : Type} (compar : α → α → Int) (S : α → Prop)
    (htot : ∀ x y, S x → S y → compar x y ≤ 0 ∨ compar y x ≤ 0)
    (htrans : ∀ x y z, S x → S y → S z → compar x y ≤ 0 → compar y z ≤ 0 → compar x z ≤ 0) :
    ∀ l : List α, (∀ x ∈ l, S x) →
      (qsort compar l).Perm l ∧ (qsort compar l).Sorted (fun a b => compar a b ≤ 0) := by
  intro l
  induction l with
  | nil => intro _; simp [qsort]
  | cons a l ih =>
    intro hl
    have hl2 : ∀ x ∈ l, S x := fun x hx => hl x (List.mem_cons_of_mem _ hx)
    obtain ⟨hp, hs⟩ := ih hl2
    refine ⟨List.perm_insertionSort _ _, ?_⟩
    have hmem : ∀ x ∈ qsort compar l, S x := fun x hx => hl2 x (hp.subset hx)
    exact sorted_orderedInsert_on (fun a b => compar a b ≤ 0) S htot htrans a
      (qsort compar l) (hl a (List.mem_cons_self _ _)) hmem hs

/-- A difference that fits a 32-bit `int` is not changed by the wrap. -/
theorem wrap32_small (x : Int) (h1 : -2147483648 ≤ x) (h2 : x < 2147483648) :
    wrap32 x = x := by
  unfold wrap32
  omega

/-- On kind codes whose difference cannot overflow, `qstrcmp_dir` puts the
larger code first and orders equal codes by `strcasecmp`. -/
theorem qstrcmp_dir_le_iff (a b : string_list_elem)
    (ha : -1073741824 ≤ a.attr ∧ a.attr ≤ 1073741823)
    (hb : -1073741824 ≤ b.attr ∧ b.attr ≤ 1073741823) :
    qstrcmp_dir a b ≤ 0 ↔
      (b.attr < a.attr ∨ (a.attr = b.attr ∧ strcasecmp a.data b.data ≤ 0)) := by
  unfold qstrcmp_dir
  by_cases h : a.attr = b.attr
  · simp [h]
  · have hw : wrap32 (b.attr - a.attr) = b.attr - a.attr :=
      wrap32_small _ (by omega) (by omega)
    simp only [ne_eq, h, not_false_eq_true, if_true, hw, false_and, or_false]
    omega

/-- A list in which no element satisfying `p` follows one that does not is its
`p`-part followed by its other part. -/
theorem eq_filter_append_of_pairwise {α : Type} (p : α → Bool) :
    ∀ l : List α, l.Pairwise (fun a b => p b = true → p a = true) →
      l = l.filter p ++ l.filter (fun x => !p x) := by
  intro l
  induction l with
  | nil => intro _; simp
  | cons a l ih =>
    intro h
    obtain ⟨h1, h2⟩ := List.pairwise_cons.mp h
    cases hpa : p a with
    | true =>
      have := ih h2
      simp only [List.filter_cons, hpa, if_true, Bool.not_true, List.cons_append]
      simp only [Bool.false_eq_true, if_false]
      rw [← this]
    | false =>
      have hall : ∀ b ∈ l, p b = false := by
        intro b hb
        cases hpb : p b with
        | false => rfl
        | true => rw [h1 b hb hpb] at hpa; cases hpa
      have e1 : l.filter p = [] := by
        rw [List.filter_eq_nil_iff]
        intro b hb
        simp [hall b hb]
      have e2 : l.filter (fun x => !p x) = l := by
        rw [List.filter_eq_self]
        intro b hb
        simp [hall b hb]
      simp [List.filter_cons, hpa, e1, e2]

/-- Counterexample to C9: sorting the plain file `/d/a.txt` and the archive
`/d/B.ZIP` directories-first puts the archive first, so the non-directory
entries of the result are not in `strcasecmp` order. -/
theorem dir_list_sort_dir_first_counterexample :
    dir_list_sort (some [⟨"/d/a.txt", RARCH_PLAIN_FILE⟩,
        ⟨"/d/B.ZIP", RARCH_COMPRESSED_ARCHIVE⟩]) true
      = some [⟨"/d/B.ZIP", RARCH_COMPRESSED_ARCHIVE⟩, ⟨"/d/a.txt", RARCH_PLAIN_FILE⟩] ∧
    0 < strcasecmp "/d/B.ZIP" "/d/a.txt" ∧
    ¬ (([⟨"/d/B.ZIP", RARCH_COMPRESSED_ARCHIVE⟩, ⟨"/d/a.txt", RARCH_PLAIN_FILE⟩] :
        List string_list_elem).filter (fun e => !decide (e.attr = RARCH_DIRECTORY))).Sorted
      (fun a b => strcasecmp a.data b.data ≤ 0) := by
  decide

/-- C9, amended: for a listing whose kinds are among UNSET, PLAIN_FILE,
COMPRESSED_ARCHIVE and DIRECTORY, `dir_list_sort(list, true)` rearranges the
entries so that every DIRECTORY entry precedes every non-directory entry, the
directory entries are in non-decreasing `strcasecmp` order of path, the
non-directory entries are ordered by decreasing kind code and, within one
kind, by non-decreasing `strcasecmp` order of path; so the entries of each
single kind are in non-decreasing `strcasecmp` order. -/
theorem dir_list_sort_dir_first (l : List string_list_elem)
    (hk : ∀ e ∈ l, e.attr = RARCH_FILETYPE_UNSET ∨ e.attr = RARCH_PLAIN_FILE ∨
      e.attr = RARCH_COMPRESSED_ARCHIVE ∨ e.attr = RARCH_DIRECTORY) :
    ∃ out, dir_list_sort (some l) true = some out ∧ out.Perm l ∧
      out = out.filter (fun e => decide (e.attr = RARCH_DIRECTORY)) ++
        out.filter (fun e => !decide (e.attr = RARCH_DIRECTORY)) ∧
      (out.filter (fun e => decide (e.attr = RARCH_DIRECTORY))).Sorted
        (fun a b => strcasecmp a.data b.data ≤ 0) ∧
      (out.filter (fun e => !decide (e.attr = RARCH_DIRECTORY))).Sorted
        (fun a b => b.attr < a.attr ∨
          (a.attr = b.attr ∧ strcasecmp a.data b.data ≤ 0)) ∧
      (∀ k : Int, (out.filter (fun e => decide (e.attr = k))).Sorted
        (fun a b => strcasecmp a.data b.data ≤ 0)) := by
  have hS : ∀ e ∈ l, (fun e : string_list_elem => 0 ≤ e.attr ∧ e.attr ≤ 4) e := by
    intro e he
    rcases hk e he with h | h | h | h <;>
      simp [h, RARCH_FILETYPE_UNSET, RARCH_PLAIN_FILE, RARCH_COMPRESSED_ARCHIVE,
        RARCH_DIRECTORY]
  have hiff : ∀ a b : string_list_elem, (0 ≤ a.attr ∧ a.attr ≤ 4) →
      (0 ≤ b.attr ∧ b.attr ≤ 4) →
      (qstrcmp_dir a b ≤ 0 ↔
        (b.attr < a.attr ∨ (a.attr = b.attr ∧ strcasecmp a.data b.data ≤ 0))) :=
    fun a b ha hb => qstrcmp_dir_le_iff a b ⟨by omega, by omega⟩ ⟨by omega, by omega⟩
  obtain ⟨hperm, hsorted⟩ := qsort_sorted_on qstrcmp_dir
    (fun e : string_list_elem => 0 ≤ e.attr ∧ e.attr ≤ 4)
    (by
      intro x y hx hy
      rw [hiff x y hx hy, hiff y x hy hx]
      have := strcasecmp_total x.data y.data
      omega)
    (by
      intro x y z hx hy hz
      rw [hiff x y hx hy, hiff y z hy hz, hiff x z hx hz]
      intro h1 h2
      rcases h1 with h1 | ⟨e1, h1⟩ <;> rcases h2 with h2 | ⟨e2, h2⟩
      · left; omega
      · left; omega
      · left; omega
      · right; exact ⟨e1.trans e2, strcasecmp_trans _ _ _ h1 h2⟩)
    l hS
  have hmem : ∀ e ∈ qsort qstrcmp_dir l, 0 ≤ e.attr ∧ e.attr ≤ 4 :=
    fun e he => hS e (hperm.subset he)
  have hpw : (qsort qstrcmp_dir l).Pairwise (fun a b => a.attr ≤ 4 ∧
      (b.attr < a.attr ∨ (a.attr = b.attr ∧ strcasecmp a.data b.data ≤ 0))) :=
    List.Pairwise.imp_of_mem
      (fun {a b} ha hb hr => ⟨(hmem a ha).2, (hiff a b (hmem a ha) (hmem b hb)).mp hr⟩)
      hsorted
  refine ⟨qsort qstrcmp_dir l, by simp [dir_list_sort], hperm, ?_, ?_, ?_, ?_⟩
  · apply eq_filter_append_of_pairwise
    refine hpw.imp ?_
    intro a b h hb
    simp only [decide_eq_true_eq, RARCH_DIRECTORY] at hb ⊢
    omega
  · refine List.Pairwise.imp_of_mem ?_ (hpw.filter _)
    intro a b ha hb h
    have h1 := (List.mem_filter.mp ha).2
    have h2 := (List.mem_filter.mp hb).2
    simp only [decide_eq_true_eq] at h1 h2
    rcases h.2 with h3 | h3
    · omega
    · exact h3.2
  · exact (hpw.filter _).imp (fun h => h.2)
  · intro k
    refine List.Pairwise.imp_of_mem ?_ (hpw.filter _)
    intro a b ha hb h
    have h1 := (List.mem_filter.mp ha).2
    have h2 := (List.mem_filter.mp hb).2
    simp only [decide_eq_true_eq] at h1 h2
    rcases h.2 with h3 | h3
    · omega
    · exact h3.2

/-- Witness for C9 (amended): the listing `a.txt` (PLAIN_FILE), `B.ZIP`
(COMPRESSED_ARCHIVE), `sub` (DIRECTORY) has producible kinds, and the theorem
applies to it. -/
theorem dir_list_sort_dir_first_witness :
    ∃ out, dir_list_sort (some [⟨"/d/a.txt", RARCH_PLAIN_FILE⟩,
        ⟨"/d/B.ZIP", RARCH_COMPRESSED_ARCHIVE⟩, ⟨"/d/sub", RARCH_DIRECTORY⟩]) true
        = some out ∧
      out.Perm [⟨"/d/a.txt", RARCH_PLAIN_FILE⟩,
        ⟨"/d/B.ZIP", RARCH_COMPRESSED_ARCHIVE⟩, ⟨"/d/sub", RARCH_DIRECTORY⟩] ∧
      out = out.filter (fun e => decide (e.attr = RARCH_DIRECTORY)) ++
        out.filter (fun e => !decide (e.attr = RARCH_DIRECTORY)) ∧
      (out.filter (fun e => decide (e.attr = RARCH_DIRECTORY))).Sorted
        (fun a b => strcasecmp a.data b.data ≤ 0) ∧
      (out.filter (fun e => !decide (e.attr = RARCH_DIRECTORY))).Sorted
        (fun a b => b.attr < a.attr ∨
          (a.attr = b.attr ∧ strcasecmp a.data b.data ≤ 0)) ∧
      (∀ k : Int, (out.filter (fun e => decide (e.attr = k))).Sorted
        (fun a b => strcasecmp a.data b.data ≤ 0)) :=
  dir_list_sort_dir_first _ (by decide)

/-- C10: `dir_list_sort(list, false)` rearranges the entries into
non-decreasing `strcasecmp` order of path, whatever their kinds: the result
is a permutation of the input, every earlier entry compares `≤ 0` with every
later one, and so does each entry with the next. -/
theorem dir_list_sort_plain (l : List string_list_elem) :
    ∃ out, dir_list_sort (some l) false = some out ∧ out.Perm l ∧
      out.Sorted (fun a b => strcasecmp a.data b.data ≤ 0) ∧
      out.Chain' (fun a b => strcasecmp a.data b.data ≤ 0) := by
  obtain ⟨hperm, hsorted⟩ := qsort_sorted_on qstrcmp_plain (fun _ => True)
    (fun x y _ _ => strcasecmp_total x.data y.data)
    (fun x y z _ _ _ h1 h2 => strcasecmp_trans x.data y.data z.data h1 h2)
    l (fun _ _ => trivial)
  have hs : (qsort qstrcmp_plain l).Sorted (fun a b => strcasecmp a.data b.data ≤ 0) :=
    hsorted
  exact ⟨qsort qstrcmp_plain l, by simp [dir_list_sort], hperm, hs, List.Pairwise.chain' hs⟩

/-! ## The scenario, failures and the handle -/

/-- C11, the code at failing inputs: the scenario of the specification gives
the listing `a.txt` PLAIN_FILE, `B.ZIP` COMPRESSED_ARCHIVE, `sub` DIRECTORY,
sorted directories-first as `sub`, `B.ZIP`, `a.txt`, only where the entry
type is known and every entry is examined (POSIX with `d_type` hints). When
`readdir` reports `d_type` DT_UNKNOWN, or the `dirent` has no `d_type`, the
directory test reads the buffer before it is filled and `sub` is missing from
the listing, although `path_is_directory` holds of `/d/sub`; on Win32, where
the enumeration yields exactly the three entries, `a.txt` is missing. -/
theorem scenario_d_listing_depends_on_backend :
    ((dir_list_new (std_env (one_dir "/d" scenario_d) ["/d/sub"]) Backend.POSIX_DT "/d"
          (some "txt") true true).list
        = some [⟨"/d/a.txt", RARCH_PLAIN_FILE⟩, ⟨"/d/B.ZIP", RARCH_COMPRESSED_ARCHIVE⟩,
            ⟨"/d/sub", RARCH_DIRECTORY⟩] ∧
      dir_list_sort (dir_list_new (std_env (one_dir "/d" scenario_d) ["/d/sub"])
          Backend.POSIX_DT "/d" (some "txt") true true).list true
        = some [⟨"/d/sub", RARCH_DIRECTORY⟩, ⟨"/d/B.ZIP", RARCH_COMPRESSED_ARCHIVE⟩,
            ⟨"/d/a.txt", RARCH_PLAIN_FILE⟩]) ∧
    ((std_env_stale (one_dir "/d" scenario_d) ["/d/sub"] "/d").path_is_directory "/d/sub"
        = true ∧
      (dir_list_new
          (std_env_stale
            (one_dir "/d" [unknown_entry "a.txt", unknown_entry "B.ZIP", unknown_entry "sub"])
            ["/d/sub"] "/d")
          Backend.POSIX_DT "/d" (some "txt") true true).list
        = some [⟨"/d/a.txt", RARCH_PLAIN_FILE⟩, ⟨"/d/B.ZIP", RARCH_COMPRESSED_ARCHIVE⟩] ∧
      (dir_list_new (std_env_stale (one_dir "/d" scenario_d) ["/d/sub"] "/d")
          Backend.POSIX_PLAIN "/d" (some "txt") true true).list
        = some [⟨"/d/a.txt", RARCH_PLAIN_FILE⟩, ⟨"/d/B.ZIP", RARCH_COMPRESSED_ARCHIVE⟩]) ∧
    (dir_list_new (std_env (one_dir "/d" scenario_d) ["/d/sub"]) Backend.WIN32 "/d"
        (some "txt") true true).list
      = some [⟨"/d/B.ZIP", RARCH_COMPRESSED_ARCHIVE⟩, ⟨"/d/sub", RARCH_DIRECTORY⟩] := by
  decide

/-- The loop of `dir_list_new`, one iteration unfolded. -/
theorem dir_list_new_loop_cons (X : Externals) (b : Backend) (dir : String)
    (include_dirs include_compressed : Bool) (ext_list : Option (List String))
    (i : Nat) (entry : dirent) (rest : List dirent) (list : List string_list_elem) :
    dir_list_new_loop X b dir include_dirs include_compressed ext_list i (entry :: rest) list =
      if (dir_list_new_call X b dir include_dirs include_compressed ext_list i entry list).1
          = -1 then none
      else dir_list_new_loop X b dir include_dirs include_compressed ext_list (i + 1) rest
        (dir_list_new_call X b dir include_dirs include_compressed ext_list i entry list).2 :=
  rfl

/-- The loop takes the error exit exactly when, after some entries were
processed, the call for the next entry returns -1. -/
theorem dir_list_new_loop_none_iff (X : Externals) (b : Backend) (dir : String)
    (include_dirs include_compressed : Bool) (ext_list : Option (List String)) :
    ∀ (es : List dirent) (i : Nat) (list : List string_list_elem),
      dir_list_new_loop X b dir include_dirs include_compressed ext_list i es list = none ↔
      ∃ pre entry post done, es = pre ++ entry :: post ∧
        dir_list_new_loop X b dir include_dirs include_compressed ext_list i pre list
          = some done ∧
        (dir_list_new_call X b dir include_dirs include_compressed ext_list
          (i + pre.length) entry done).1 = -1 := by
  intro es
  induction es with
  | nil =>
    intro i list
    simp [dir_list_new_loop]
  | cons e es ih =>
    intro i list
    rw [dir_list_new_loop_cons]
    by_cases hret :
        (dir_list_new_call X b dir include_dirs include_compressed ext_list i e list).1 = -1
    · rw [if_pos hret]
      simp only [true_iff]
      exact ⟨[], e, es, list, rfl, by simp [dir_list_new_loop], by simpa using hret⟩
    · rw [if_neg hret, ih]
      constructor
      · rintro ⟨pre, entry, post, done, h1, h2, h3⟩
        refine ⟨e :: pre, entry, post, done, by simp [h1], ?_, ?_⟩
        · rw [dir_list_new_loop_cons, if_neg hret]
          exact h2
        · have : i + (e :: pre).length = i + 1 + pre.length := by
            simp only [List.length_cons]; omega
          rw [this]
          exact h3
      · rintro ⟨pre, entry, post, done, h1, h2, h3⟩
        cases pre with
        | nil =>
          simp only [List.nil_append, List.cons.injEq] at h1
          obtain ⟨rfl, rfl⟩ := h1
          simp only [dir_list_new_loop, Option.some.injEq] at h2
          subst h2
          simp only [List.length_nil, Nat.add_zero] at h3
          exact absurd h3 hret
        | cons p pre =>
          simp only [List.cons_append, List.cons.injEq] at h1
          obtain ⟨rfl, rfl⟩ := h1
          rw [dir_list_new_loop_cons, if_neg hret] at h2
          refine ⟨pre, entry, post, done, rfl, h2, ?_⟩
          have : i + (e :: pre).length = i + 1 + pre.length := by
            simp only [List.length_cons]; omega
          rw [this] at h3
          exact h3

/-- The return code -1 of `parse_dir_entry` means that `string_list_append`
failed; the listing is then the one passed in. -/
theorem parse_dir_entry_neg_one (X : Externals) (name file_path : String)
    (is_dir include_dirs include_compressed : Bool) (list : List string_list_elem)
    (ext_list : Option (List String)) (file_ext : String)
    (h : (parse_dir_entry X name file_path is_dir include_dirs include_compressed list
      ext_list file_ext).1 = -1) :
    X.string_list_append_ok list.length = false ∧
    (parse_dir_entry X name file_path is_dir include_dirs include_compressed list
      ext_list file_ext).2 = list := by
  revert h
  by_cases h1 : name = "."
  · simp [parse_dir_entry, h1]
  by_cases h2 : name = ".."
  · simp [parse_dir_entry, h2]
  cases is_dir <;> cases include_dirs <;> cases include_compressed <;>
  cases hc : X.path_is_compressed_file file_path <;>
  cases hm : X.string_list_find_elem_prefix ext_list "." file_ext <;>
  cases ha : X.string_list_append_ok list.length <;>
  cases ext_list <;>
  simp [parse_dir_entry, string_list_append, hc, hm, ha, h1, h2]

/-- C13: `dir_list_new` returns `NULL` exactly when `string_list_new` fails,
or the open step fails, or, after some entries were processed, a call of
`parse_dir_entry` returns -1, which it does only when `string_list_append`
failed; so an open failure always gives `NULL`, an append failure gives `NULL`
and not the listing built so far, and every other run returns the listing the
loop built. -/
theorem dir_list_new_null_iff (X : Externals) (b : Backend) (dir : String)
    (ext : Option String) (include_dirs include_compressed : Bool) :
    ((dir_list_new X b dir ext include_dirs include_compressed).list = none ↔
      (X.string_list_new_ok = false ∨
       dirent_error (dirent_opendir b (X.dir_stream dir)) = true ∨
       ∃ pre entry post done,
         (dirent_opendir b (X.dir_stream dir)).pending = pre ++ entry :: post ∧
         dir_list_new_loop X b dir include_dirs include_compressed
           (dir_list_new_ext_list X ext) 0 pre [] = some done ∧
         (dir_list_new_call X b dir include_dirs include_compressed
           (dir_list_new_ext_list X ext) pre.length entry done).1 = -1 ∧
         X.string_list_append_ok done.length = false)) ∧
    (∀ l, X.string_list_new_ok = true →
      dirent_error (dirent_opendir b (X.dir_stream dir)) = false →
      dir_list_new_loop X b dir include_dirs include_compressed
        (dir_list_new_ext_list X ext) 0 (dirent_opendir b (X.dir_stream dir)).pending []
        = some l →
      (dir_list_new X b dir ext include_dirs include_compressed).list = some l) := by
  have hloop := dir_list_new_loop_none_iff X b dir include_dirs include_compressed
    (dir_list_new_ext_list X ext) (dirent_opendir b (X.dir_stream dir)).pending 0 []
  constructor
  · cases hnew : X.string_list_new_ok with
    | false => simp [dir_list_new, hnew]
    | true =>
      cases hopen : dirent_error (dirent_opendir b (X.dir_stream dir)) with
      | true => simp [dir_list_new, hnew, hopen]
      | false =>
        have hlist : (dir_list_new X b dir ext include_dirs include_compressed).list = none ↔
            dir_list_new_loop X b dir include_dirs include_compressed
              (dir_list_new_ext_list X ext) 0
              (dirent_opendir b (X.dir_stream dir)).pending [] = none := by
          simp only [dir_list_new, hnew, hopen, Bool.not_true, Bool.false_eq_true, if_false]
          split <;> simp_all
        rw [hlist, hloop]
        simp only [Bool.true_eq_false, Bool.false_eq_true, false_or]
        constructor
        · rintro ⟨pre, entry, post, done, h1, h2, h3⟩
          refine ⟨pre, entry, post, done, h1, h2, by simpa using h3, ?_⟩
          have h4 : (dir_list_new_call X b dir include_dirs include_compressed
              (dir_list_new_ext_list X ext) pre.length entry done).1 = -1 := by
            simpa using h3
          exact (parse_dir_entry_neg_one X _ _ _ _ _ _ _ _ h4).1
        · rintro ⟨pre, entry, post, done, h1, h2, h3, _⟩
          exact ⟨pre, entry, post, done, h1, h2, by simpa using h3⟩
  · intro l hnew hopen hl
    simp [dir_list_new, hnew, hopen, hl]

/-- Witness for C13: with memory for one entry only, the second accepted entry
of `/d` makes `dir_list_new` return `NULL`, not the one-entry listing; and a
path that cannot be opened gives `NULL`. -/
theorem dir_list_new_null_iff_witness :
    (dir_list_new (std_env_cap (one_dir "/d" scenario_d) ["/d/sub"] 1) Backend.POSIX_DT "/d"
      (some "txt") true true).list = none ∧
    (dir_list_new (std_env (one_dir "/d" scenario_d) ["/d/sub"]) Backend.POSIX_DT "/nowhere"
      (some "txt") true true).list = none ∧
    (dir_list_new (std_env (one_dir "/d" [file_entry "a.txt"]) []) Backend.POSIX_DT "/d"
      (some "txt") true true).list = some [⟨"/d/a.txt", RARCH_PLAIN_FILE⟩] :=
  ⟨(dir_list_new_null_iff (std_env_cap (one_dir "/d" scenario_d) ["/d/sub"] 1)
      Backend.POSIX_DT "/d" (some "txt") true true).1.2
      (Or.inr (Or.inr ⟨[file_entry "a.txt"], file_entry "B.ZIP", [dir_entry "sub"],
        [⟨"/d/a.txt", RARCH_PLAIN_FILE⟩], by decide, by decide, by decide, by decide⟩)),
    (dir_list_new_null_iff (std_env (one_dir "/d" scenario_d) ["/d/sub"])
      Backend.POSIX_DT "/nowhere" (some "txt") true true).1.2 (Or.inr (Or.inl (by decide))),
    (dir_list_new_null_iff (std_env (one_dir "/d" [file_entry "a.txt"]) [])
      Backend.POSIX_DT "/d" (some "txt") true true).2 _ (by decide) (by decide) (by decide)⟩

/-- C14, the code at a failing input: `dir_list_new` calls
`dirent_is_directory` on `file_path` before `fill_pathname_join` has written
the entry's path into it. In `/d`, read with `d_type` DT_UNKNOWN as the
directory `sub` and then the file `a.txt`, with the buffer holding what the
previous iteration left, `sub` is tested on the empty buffer and `a.txt` on
`/d/sub`: the directory is listed as a non-directory and the file as
DIRECTORY, on the `d_type` path and on the path without `d_type` alike. -/
theorem dir_list_new_is_dir_from_stale_path :
    (std_env_stale (one_dir "/d" [unknown_entry "sub", unknown_entry "a.txt"]) ["/d/sub"]
      "/d").path_is_directory "/d/sub" = true ∧
    (std_env_stale (one_dir "/d" [unknown_entry "sub", unknown_entry "a.txt"]) ["/d/sub"]
      "/d").path_is_directory "/d/a.txt" = false ∧
    (dir_list_new
      (std_env_stale (one_dir "/d" [unknown_entry "sub", unknown_entry "a.txt"]) ["/d/sub"]
        "/d") Backend.POSIX_DT "/d" none true true).list
      = some [⟨"/d/sub", RARCH_FILETYPE_UNSET⟩, ⟨"/d/a.txt", RARCH_DIRECTORY⟩] ∧
    (dir_list_new
      (std_env_stale (one_dir "/d" [unknown_entry "sub", unknown_entry "a.txt"]) ["/d/sub"]
        "/d") Backend.POSIX_PLAIN "/d" none true true).list
      = some [⟨"/d/sub", RARCH_FILETYPE_UNSET⟩, ⟨"/d/a.txt", RARCH_DIRECTORY⟩] := by
  decide

/-- C15: a run of `dir_list_new` has opened a handle exactly when
`string_list_new` and the open step succeeded, and every such run, whether it
returns a listing or takes the error exit after a failed append, calls the
close primitive exactly once. -/
theorem dir_list_new_closes_once (X : Externals) (b : Backend) (dir : String)
    (ext : Option String) (include_dirs include_compressed : Bool) :
    ((dir_list_new X b dir ext include_dirs include_compressed).opened = true ↔
      (X.string_list_new_ok = true ∧
        dirent_error (dirent_opendir b (X.dir_stream dir)) = false)) ∧
    ((dir_list_new X b dir ext include_dirs include_compressed).opened = true →
      (dir_list_new X b dir ext include_dirs include_compressed).close_calls = 1) := by
  cases hnew : X.string_list_new_ok with
  | false => simp [dir_list_new, hnew]
  | true =>
    cases hopen : dirent_error (dirent_opendir b (X.dir_stream dir)) with
    | true => simp [dir_list_new, hnew, hopen]
    | false =>
      have hvalid : (dirent_opendir b (X.dir_stream dir)).valid = true := by
        simpa [dirent_error] using hopen
      have hclose : dirent_closedir b (dirent_opendir b (X.dir_stream dir)) = 1 := by
        cases b <;> simp [dirent_closedir, hvalid]
      simp only [dir_list_new, hnew, hopen, Bool.not_true, Bool.false_eq_true, if_false]
      split <;> simp [hclose]

/-- Witness for C15: the run that lists `/d` and the run that fails on its
second append both opened the handle, and both closed it once. -/
theorem dir_list_new_closes_once_witness :
    ((dir_list_new (std_env (one_dir "/d" scenario_d) ["/d/sub"]) Backend.POSIX_DT "/d"
        (some "txt") true true).list ≠ none ∧
      (dir_list_new (std_env (one_dir "/d" scenario_d) ["/d/sub"]) Backend.POSIX_DT "/d"
        (some "txt") true true).close_calls = 1) ∧
    ((dir_list_new (std_env_cap (one_dir "/d" scenario_d) ["/d/sub"] 1) Backend.WIN32 "/d"
        none true true).list = none ∧
      (dir_list_new (std_env_cap (one_dir "/d" scenario_d) ["/d/sub"] 1) Backend.WIN32 "/d"
        none true true).close_calls = 1) :=
  ⟨⟨by decide,
      (dir_list_new_closes_once (std_env (one_dir "/d" scenario_d) ["/d/sub"])
        Backend.POSIX_DT "/d" (some "txt") true true).2 (by decide)⟩,
    ⟨by decide,
      (dir_list_new_closes_once (std_env_cap (one_dir "/d" scenario_d) ["/d/sub"] 1)
        Backend.WIN32 "/d" none true true).2 (by decide)⟩⟩

/-! ## Ties and consistency of the comparators -/

/-- The comparison loop returns 0 exactly on byte sequences that are equal
once lower-cased. -/
theorem strcasecmp_bytes_eq_zero_iff : ∀ a b : List Nat,
    (∀ x ∈ a, x ≠ 0) → (∀ x ∈ b, x ≠ 0) →
    (strcasecmp_bytes a b = 0 ↔ a.map tolower = b.map tolower)
  | [], [], _, _ => by simp [strcasecmp_bytes]
  | [], y :: _, _, hb => by
    have := tolower_ne_zero (hb y (List.mem_cons_self _ _))
    simp only [strcasecmp_bytes, List.map_nil, List.map_cons]
    constructor
    · intro h; omega
    · intro h; cases h
  | x :: _, [], ha, _ => by
    have := tolower_ne_zero (ha x (List.mem_cons_self _ _))
    simp only [strcasecmp_bytes, List.map_nil, List.map_cons]
    constructor
    · intro h; omega
    · intro h; cases h
  | x :: as, y :: bs, ha, hb => by
    have ih := strcasecmp_bytes_eq_zero_iff as bs
      (fun u hu => ha u (List.mem_cons_of_mem _ hu))
      (fun u hu => hb u (List.mem_cons_of_mem _ hu))
    simp only [strcasecmp_bytes, List.map_cons, List.cons.injEq]
    by_cases h : tolower x = tolower y
    · rw [if_pos h, ih]
      simp [h]
    · rw [if_neg h]
      constructor
      · intro h0; exact absurd (by omega) h
      · intro h0; exact absurd h0.1 h

/-- The result of `strcasecmp` is 0 exactly for strings equal up to the case
of ASCII letters. -/
theorem strcasecmp_eq_zero_iff (s t : String) :
    strcasecmp s t = 0 ↔ (c_str s).map tolower = (c_str t).map tolower :=
  strcasecmp_bytes_eq_zero_iff (c_str s) (c_str t) (c_str_ne_zero s) (c_str_ne_zero t)

/-- On kind codes whose difference cannot overflow, swapping the arguments of
`qstrcmp_dir` negates its result. -/
theorem qstrcmp_dir_swap (a b : string_list_elem)
    (ha : -1073741824 ≤ a.attr ∧ a.attr ≤ 1073741823)
    (hb : -1073741824 ≤ b.attr ∧ b.attr ≤ 1073741823) :
    qstrcmp_dir b a = - qstrcmp_dir a b := by
  unfold qstrcmp_dir
  by_cases h : a.attr = b.attr
  · simp [h, strcasecmp_swap a.data b.data]
  · have h2 : b.attr ≠ a.attr := fun e => h e.symm
    have hw1 : wrap32 (b.attr - a.attr) = b.attr - a.attr :=
      wrap32_small _ (by omega) (by omega)
    have hw2 : wrap32 (a.attr - b.attr) = a.attr - b.attr :=
      wrap32_small _ (by omega) (by omega)
    simp only [ne_eq, h, h2, not_false_eq_true, if_true, hw1, hw2]
    omega

/-- On kind codes whose difference cannot overflow, `qstrcmp_dir` orders any
two entries one way or the other. -/
theorem qstrcmp_dir_total (a b : string_list_elem)
    (ha : -1073741824 ≤ a.attr ∧ a.attr ≤ 1073741823)
    (hb : -1073741824 ≤ b.attr ∧ b.attr ≤ 1073741823) :
    qstrcmp_dir a b ≤ 0 ∨ qstrcmp_dir b a ≤ 0 := by
  have := qstrcmp_dir_swap a b ha hb
  omega

/-- On kind codes whose difference cannot overflow, the order
`qstrcmp_dir a b ≤ 0` is transitive. -/
theorem qstrcmp_dir_trans (a b c : string_list_elem)
    (ha : -1073741824 ≤ a.attr ∧ a.attr ≤ 1073741823)
    (hb : -1073741824 ≤ b.attr ∧ b.attr ≤ 1073741823)
    (hc : -1073741824 ≤ c.attr ∧ c.attr ≤ 1073741823)
    (h1 : qstrcmp_dir a b ≤ 0) (h2 : qstrcmp_dir b c ≤ 0) : qstrcmp_dir a c ≤ 0 := by
  rw [qstrcmp_dir_le_iff a b ha hb] at h1
  rw [qstrcmp_dir_le_iff b c hb hc] at h2
  rw [qstrcmp_dir_le_iff a c ha hc]
  rcases h1 with h1 | ⟨e1, h1⟩ <;> rcases h2 with h2 | ⟨e2, h2⟩
  · left; omega
  · left; omega
  · left; omega
  · right; exact ⟨e1.trans e2, strcasecmp_trans _ _ _ h1 h2⟩

/-- Two rearrangements of the same entries sort to the same list when the
comparator is total and transitive on them and ties only equal entries. -/
theorem qsort_unique_on {α : Type} (compar : α → α → Int) (S : α → Prop)
    (htot : ∀ x y, S x → S y → compar x y ≤ 0 ∨ compar y x ≤ 0)
    (htrans : ∀ x y z, S x → S y → S z → compar x y ≤ 0 → compar y z ≤ 0 → compar x z ≤ 0)
    (hanti : ∀ x y, S x → S y → compar x y ≤ 0 → compar y x ≤ 0 → x = y)
    (l1 l2 : List α) (hp : l1.Perm l2) (hS : ∀ x ∈ l1, S x) :
    qsort compar l1 = qsort compar l2 := by
  have hS2 : ∀ x ∈ l2, S x := fun x hx => hS x (hp.symm.subset hx)
  obtain ⟨p1, s1⟩ := qsort_sorted_on compar S htot htrans l1 hS
  obtain ⟨p2, s2⟩ := qsort_sorted_on compar S htot htrans l2 hS2
  have hperm : (qsort compar l1).Perm (qsort compar l2) := p1.trans (hp.trans p2.symm)
  haveI : IsAntisymm α (fun a b => compar a b ≤ 0 ∧ S a ∧ S b) :=
    ⟨fun a b h1 h2 => hanti a b h1.2.1 h1.2.2 h1.1 h2.1⟩
  have s1b : (qsort compar l1).Sorted (fun a b => compar a b ≤ 0 ∧ S a ∧ S b) :=
    List.Pairwise.imp_of_mem
      (fun {a b} ha hb h => ⟨h, hS a (p1.subset ha), hS b (p1.subset hb)⟩) s1
  have s2b : (qsort compar l2).Sorted (fun a b => compar a b ≤ 0 ∧ S a ∧ S b) :=
    List.Pairwise.imp_of_mem
      (fun {a b} ha hb h => ⟨h, hS2 a (p2.subset ha), hS2 b (p2.subset hb)⟩) s2
  exact List.eq_of_perm_of_sorted hperm s1b s2b

/-- The wrapped difference of two kind codes is exact when the difference
fits a 32-bit `int`; then `qstrcmp_dir` puts the larger code first and orders
equal codes by `strcasecmp`. -/
theorem qstrcmp_dir_le_iff_of_diff (a b : string_list_elem)
    (h : -2147483647 ≤ b.attr - a.attr ∧ b.attr - a.attr ≤ 2147483647) :
    qstrcmp_dir a b ≤ 0 ↔
      (b.attr < a.attr ∨ (a.attr = b.attr ∧ strcasecmp a.data b.data ≤ 0)) := by
  unfold qstrcmp_dir
  by_cases he : a.attr = b.attr
  · simp [he]
  · have hw : wrap32 (b.attr - a.attr) = b.attr - a.attr :=
      wrap32_small _ (by omega) (by omega)
    simp only [ne_eq, he, not_false_eq_true, if_true, hw, false_and, or_false]
    omega

/-- When neither difference of the two kind codes overflows, swapping the
arguments of `qstrcmp_dir` negates its result. -/
theorem qstrcmp_dir_swap_of_diff (a b : string_list_elem)
    (h : -2147483647 ≤ b.attr - a.attr ∧ b.attr - a.attr ≤ 2147483647) :
    qstrcmp_dir b a = - qstrcmp_dir a b := by
  unfold qstrcmp_dir
  by_cases he : a.attr = b.attr
  · simp [he, strcasecmp_swap a.data b.data]
  · have h2 : b.attr ≠ a.attr := fun e => he e.symm
    have hw1 : wrap32 (b.attr - a.attr) = b.attr - a.attr :=
      wrap32_small _ (by omega) (by omega)
    have hw2 : wrap32 (a.attr - b.attr) = a.attr - b.attr :=
      wrap32_small _ (by omega) (by omega)
    simp only [ne_eq, he, h2, not_false_eq_true, if_true, hw1, hw2]
    omega

/-- When no difference among three kind codes overflows, the order
`qstrcmp_dir a b ≤ 0` is transitive on them. -/
theorem qstrcmp_dir_trans_of_diff (a b c : string_list_elem)
    (hab : -2147483647 ≤ b.attr - a.attr ∧ b.attr - a.attr ≤ 2147483647)
    (hbc : -2147483647 ≤ c.attr - b.attr ∧ c.attr - b.attr ≤ 2147483647)
    (hac : -2147483647 ≤ c.attr - a.attr ∧ c.attr - a.attr ≤ 2147483647)
    (h1 : qstrcmp_dir a b ≤ 0) (h2 : qstrcmp_dir b c ≤ 0) : qstrcmp_dir a c ≤ 0 := by
  rw [qstrcmp_dir_le_iff_of_diff a b hab] at h1
  rw [qstrcmp_dir_le_iff_of_diff b c hbc] at h2
  rw [qstrcmp_dir_le_iff_of_diff a c hac]
  rcases h1 with h1 | ⟨e1, h1⟩ <;> rcases h2 with h2 | ⟨e2, h2⟩
  · left; omega
  · left; omega
  · left; omega
  · right; exact ⟨e1.trans e2, strcasecmp_trans _ _ _ h1 h2⟩

/-- Counterexample to C12: `/d/A.txt` and `/d/a.txt`, both PLAIN_FILE, are
distinct entries on which both comparators return 0, and the sorted listing
follows the input order; `qstrcmp_plain` also returns 0 on two entries that
differ in kind only. -/
theorem comparators_tie_counterexample :
    (⟨"/d/A.txt", RARCH_PLAIN_FILE⟩ : string_list_elem) ≠ ⟨"/d/a.txt", RARCH_PLAIN_FILE⟩ ∧
    qstrcmp_plain ⟨"/d/A.txt", RARCH_PLAIN_FILE⟩ ⟨"/d/a.txt", RARCH_PLAIN_FILE⟩ = 0 ∧
    qstrcmp_dir ⟨"/d/A.txt", RARCH_PLAIN_FILE⟩ ⟨"/d/a.txt", RARCH_PLAIN_FILE⟩ = 0 ∧
    (⟨"/d/x", RARCH_PLAIN_FILE⟩ : string_list_elem) ≠ ⟨"/d/x", RARCH_DIRECTORY⟩ ∧
    qstrcmp_plain ⟨"/d/x", RARCH_PLAIN_FILE⟩ ⟨"/d/x", RARCH_DIRECTORY⟩ = 0 ∧
    dir_list_sort (some [⟨"/d/A.txt", RARCH_PLAIN_FILE⟩, ⟨"/d/a.txt", RARCH_PLAIN_FILE⟩]) true
      ≠ dir_list_sort
        (some [⟨"/d/a.txt", RARCH_PLAIN_FILE⟩, ⟨"/d/A.txt", RARCH_PLAIN_FILE⟩]) true ∧
    dir_list_sort (some [⟨"/d/A.txt", RARCH_PLAIN_FILE⟩, ⟨"/d/a.txt", RARCH_PLAIN_FILE⟩]) false
      ≠ dir_list_sort
        (some [⟨"/d/a.txt", RARCH_PLAIN_FILE⟩, ⟨"/d/A.txt", RARCH_PLAIN_FILE⟩]) false := by
  decide

/-- C12, amended: (1) `qstrcmp_plain` returns 0 exactly when the two paths
are equal up to the case of ASCII letters, whatever the kinds; (2) on 32-bit
kind codes `qstrcmp_dir` returns 0 exactly when moreover the kinds are equal;
(3) on every pair on which `qstrcmp_plain` is not 0, exactly one of
a-before-b and b-before-a holds; (4) so it is for `qstrcmp_dir` on every pair
whose kind codes differ by less than 2^31, so that neither difference
overflows; (5) when no two distinct entries of a listing tie under
`qstrcmp_plain`, `dir_list_sort(list, false)` gives the same result for every
input order of those entries; (6) when the kind codes of a listing differ
pairwise by less than 2^31 and no two distinct entries tie under
`qstrcmp_dir`, `dir_list_sort(list, true)` gives the same result for every
input order of those entries. -/
theorem comparators_tie_iff_and_sort_unique :
    (∀ a b : string_list_elem,
      qstrcmp_plain a b = 0 ↔ (c_str a.data).map tolower = (c_str b.data).map tolower) ∧
    (∀ a b : string_list_elem,
      (-2147483648 ≤ a.attr ∧ a.attr ≤ 2147483647) →
      (-2147483648 ≤ b.attr ∧ b.attr ≤ 2147483647) →
      (qstrcmp_dir a b = 0 ↔
        a.attr = b.attr ∧ (c_str a.data).map tolower = (c_str b.data).map tolower)) ∧
    (∀ a b : string_list_elem, qstrcmp_plain a b ≠ 0 →
      (qstrcmp_plain a b < 0 ∧ 0 < qstrcmp_plain b a) ∨
      (0 < qstrcmp_plain a b ∧ qstrcmp_plain b a < 0)) ∧
    (∀ a b : string_list_elem,
      (-2147483647 ≤ b.attr - a.attr ∧ b.attr - a.attr ≤ 2147483647) →
      qstrcmp_dir a b ≠ 0 →
      (qstrcmp_dir a b < 0 ∧ 0 < qstrcmp_dir b a) ∨
      (0 < qstrcmp_dir a b ∧ qstrcmp_dir b a < 0)) ∧
    (∀ l1 l2 : List string_list_elem, l1.Perm l2 →
      (∀ a ∈ l1, ∀ b ∈ l1, a ≠ b → qstrcmp_plain a b ≠ 0) →
      dir_list_sort (some l1) false = dir_list_sort (some l2) false) ∧
    (∀ l1 l2 : List string_list_elem, l1.Perm l2 →
      (∀ a ∈ l1, ∀ b ∈ l1,
        -2147483647 ≤ b.attr - a.attr ∧ b.attr - a.attr ≤ 2147483647) →
      (∀ a ∈ l1, ∀ b ∈ l1, a ≠ b → qstrcmp_dir a b ≠ 0) →
      dir_list_sort (some l1) true = dir_list_sort (some l2) true) := by
  refine ⟨?_, ?_, ?_, ?_, ?_, ?_⟩
  · intro a b
    exact strcasecmp_eq_zero_iff a.data b.data
  · intro a b ha hb
    unfold qstrcmp_dir
    by_cases h : a.attr = b.attr
    · simp [h, strcasecmp_eq_zero_iff]
    · have hw : wrap32 (b.attr - a.attr) ≠ 0 := by
        unfold wrap32
        omega
      simp [h, hw]
  · intro a b h
    have hs : qstrcmp_plain b a = - qstrcmp_plain a b := strcasecmp_swap a.data b.data
    omega
  · intro a b hd h
    have hs := qstrcmp_dir_swap_of_diff a b hd
    omega
  · intro l1 l2 hp hties
    have key := qsort_unique_on qstrcmp_plain (fun x => x ∈ l1)
      (fun x y _ _ => strcasecmp_total x.data y.data)
      (fun x y z _ _ _ h1 h2 => strcasecmp_trans x.data y.data z.data h1 h2)
      (by
        intro x y hx hy h1 h2
        by_contra hne
        have hs : qstrcmp_plain y x = - qstrcmp_plain x y := strcasecmp_swap x.data y.data
        exact hties x hx y hy hne (by omega))
      l1 l2 hp (fun x hx => hx)
    simp [dir_list_sort, key]
  · intro l1 l2 hp hd hties
    have key := qsort_unique_on qstrcmp_dir (fun x => x ∈ l1)
      (by
        intro x y hx hy
        have hs := qstrcmp_dir_swap_of_diff x y (hd x hx y hy)
        omega)
      (fun x y z hx hy hz h1 h2 =>
        qstrcmp_dir_trans_of_diff x y z (hd x hx y hy) (hd y hy z hz) (hd x hx z hz) h1 h2)
      (by
        intro x y hx hy h1 h2
        by_contra hne
        have hs := qstrcmp_dir_swap_of_diff x y (hd x hx y hy)
        exact hties x hx y hy hne (by omega))
      l1 l2 hp (fun x hx => hx)
    simp [dir_list_sort, key]

/-- Witness for C12 (amended): `a.txt`, `B.ZIP` and `sub` do not tie and their
kind codes differ by less than 2^31; the directories-first sort of the listing
and of its reverse agree. -/
theorem comparators_tie_iff_and_sort_unique_witness :
    dir_list_sort (some [⟨"/d/a.txt", RARCH_PLAIN_FILE⟩,
        ⟨"/d/B.ZIP", RARCH_COMPRESSED_ARCHIVE⟩, ⟨"/d/sub", RARCH_DIRECTORY⟩]) true
      = dir_list_sort (some [⟨"/d/sub", RARCH_DIRECTORY⟩,
        ⟨"/d/B.ZIP", RARCH_COMPRESSED_ARCHIVE⟩, ⟨"/d/a.txt", RARCH_PLAIN_FILE⟩]) true :=
  comparators_tie_iff_and_sort_unique.2.2.2.2.2 _ _ (List.reverse_perm _).symm
    (by decide) (by decide)

/-- Counterexample to C16: with kind codes at the ends of the `int` range the
wrapped difference misorders. For kinds 0 and -2147483648 the comparator is
negative both ways; for kinds 0, -1610612736 and 1073741824 it puts the first
before the second and the second before the third, but the third before the
first. -/
theorem qstrcmp_dir_overflow_counterexample :
    (qstrcmp_dir ⟨"x", 0⟩ ⟨"y", -2147483648⟩ < 0 ∧
      qstrcmp_dir ⟨"y", -2147483648⟩ ⟨"x", 0⟩ < 0 ∧
      Int.sign (qstrcmp_dir ⟨"x", 0⟩ ⟨"y", -2147483648⟩)
        ≠ - Int.sign (qstrcmp_dir ⟨"y", -2147483648⟩ ⟨"x", 0⟩)) ∧
    (qstrcmp_dir ⟨"x", 0⟩ ⟨"y", -1610612736⟩ ≤ 0 ∧
      qstrcmp_dir ⟨"y", -1610612736⟩ ⟨"z", 1073741824⟩ ≤ 0 ∧
      ¬ qstrcmp_dir ⟨"x", 0⟩ ⟨"z", 1073741824⟩ ≤ 0) := by
  decide

/-- C16, amended: on entries whose kind codes differ pairwise by less than
2^31, so that no difference `b_type - a_type` overflows a 32-bit `int` (as on
all codes from 0 to INT_MAX, hence on the kind codes 0 to 4), `qstrcmp_dir` is
a consistent comparator: the sign of `qstrcmp_dir(a, b)` is the opposite of
the sign of `qstrcmp_dir(b, a)`, and `qstrcmp_dir(a, b) ≤ 0` with
`qstrcmp_dir(b, c) ≤ 0` gives `qstrcmp_dir(a, c) ≤ 0`. -/
theorem qstrcmp_dir_consistent (a b c : string_list_elem)
    (hab : -2147483647 ≤ b.attr - a.attr ∧ b.attr - a.attr ≤ 2147483647)
    (hbc : -2147483647 ≤ c.attr - b.attr ∧ c.attr - b.attr ≤ 2147483647)
    (hac : -2147483647 ≤ c.attr - a.attr ∧ c.attr - a.attr ≤ 2147483647) :
    Int.sign (qstrcmp_dir a b) = - Int.sign (qstrcmp_dir b a) ∧
    (qstrcmp_dir a b ≤ 0 → qstrcmp_dir b c ≤ 0 → qstrcmp_dir a c ≤ 0) := by
  constructor
  · rw [qstrcmp_dir_swap_of_diff a b hab, Int.sign_neg, Int.neg_neg]
  · exact qstrcmp_dir_trans_of_diff a b c hab hbc hac

/-- Witness for C16 (amended): the kind codes INT_MAX, 4 and 0 differ pairwise
by less than 2^31, and the comparator orders the three entries consistently. -/
theorem qstrcmp_dir_consistent_witness :
    Int.sign (qstrcmp_dir ⟨"/d/top", 2147483647⟩ ⟨"/d/sub", RARCH_DIRECTORY⟩)
      = - Int.sign (qstrcmp_dir ⟨"/d/sub", RARCH_DIRECTORY⟩ ⟨"/d/top", 2147483647⟩) ∧
    (qstrcmp_dir ⟨"/d/top", 2147483647⟩ ⟨"/d/sub", RARCH_DIRECTORY⟩ ≤ 0 →
      qstrcmp_dir ⟨"/d/sub", RARCH_DIRECTORY⟩ ⟨"/d/a.txt", RARCH_FILETYPE_UNSET⟩ ≤ 0 →
      qstrcmp_dir ⟨"/d/top", 2147483647⟩ ⟨"/d/a.txt", RARCH_FILETYPE_UNSET⟩ ≤ 0) :=
  qstrcmp_dir_consistent ⟨"/d/top", 2147483647⟩ ⟨"/d/sub", RARCH_DIRECTORY⟩
    ⟨"/d/a.txt", RARCH_FILETYPE_UNSET⟩ (by decide) (by decide) (by decide)

end DirList
